import Mathlib

/-
Verification of the reconciliation and attribution engine of the DSA
performance dashboard (src/dsa_dashboard.py) via a shallow embedding.

Python `str` values are modelled as `List Char` (called `Str` below); the
lexicographic linear order on `List Char` matches Python string comparison
by code point.  A table cell that may be missing (`NaN` / `None`) is an
`Option Str`.  Monetary amounts parsed by `clean_currency_amount` are
modelled as rationals.  All definitions are translated from the source;
line numbers in doc comments refer to src/dsa_dashboard.py.
-/

namespace DSADashboard

/-- Python strings, as lists of characters. -/
abbrev Str := List Char

/-- Character list of a string literal, for writing concrete inputs. -/
def str (s : String) : Str := s.data

/-- Characters of Python `''.join(filter(str.isdigit, s))` (identifiers are ASCII). -/
def digitsOnly (l : Str) : Str := l.filter Char.isDigit

/-- Python slice `s[-n:]`: the last `n` characters of `s` (all of `s` when it
is shorter than `n`). -/
def lastChars (n : Nat) (l : Str) : Str := l.drop (l.length - n)

/-- Python `s.strip()`: remove leading and trailing whitespace. -/
def pyStrip (l : Str) : Str :=
  ((l.dropWhile Char.isWhitespace).reverse.dropWhile Char.isWhitespace).reverse

/-- Source lines 95-106, `clean_mobile_number`: `None` stays `None`; otherwise
all non-digit characters are removed, a string of more than 7 digits keeps
only its last 7 digits, and anything else (7 digits or fewer) is returned
unchanged. -/
def clean_mobile_number (mobile : Option Str) : Option Str :=
  match mobile with
  | none => none
  | some s =>
    let c := digitsOnly s
    if c.length = 7 then some c
    else if c.length > 7 then some (lastChars 7 c)
    else some c

/-- Source lines 734-735: `if mobile_clean.startswith('220'): mobile_clean =
mobile_clean[3:]` - drop a leading country code `220` from the digit string. -/
def strip220 (l : Str) : Str :=
  match l with
  | '2' :: '2' :: '0' :: rest => rest
  | _ => l

/-- Source lines 726-738, `clean_mobile_for_report2`: `None` stays `None`;
non-digits are removed; a leading `220` is dropped; a digit string of length
at least 7 keeps its last 7 digits; an empty digit string becomes `None`;
anything shorter than 7 digits is returned unchanged. -/
def clean_mobile_for_report2 (mobile : Option Str) : Option Str :=
  match mobile with
  | none => none
  | some s =>
    let c := strip220 (digitsOnly s)
    if 7 ≤ c.length then some (lastChars 7 c)
    else if c = [] then none
    else some c

/-- Digit content of a raw string: how many digit characters it has. -/
def numDigits (l : Str) : Nat := (digitsOnly l).length

/-- Source lines 108-113, `safe_str_access`: `astype(str).str.strip()` applied
to a cell (both branches do the same thing). -/
def safe_str_access (s : Str) : Str := pyStrip s

/-- Source lines 127-132, `find_column`: return the first of `possible_names`
that is a column of the table (exact string equality), else `None`. -/
def find_column (cols : List Str) (possible_names : List Str) : Option Str :=
  possible_names.find? (fun n => cols.contains n)

/-- Python `sub in s` on strings: `sub` occurs contiguously in `s`. -/
def containsSub (needle : Str) : Str → Bool
  | [] => needle.isEmpty
  | c :: rest => needle.isPrefixOf (c :: rest) || containsSub needle rest

/-- Python `s.lower()` (ASCII column names). -/
def pyToLower (s : Str) : Str := s.map Char.toLower

/-- Source lines 662-666, `deposit_customer_options` in `process_report_2`. -/
def deposit_customer_options : List Str :=
  [str "User Identifier", str "user_id", str "UserIdentifier", str "Customer Mobile",
   str "customer_mobile", str "Mobile", str "USER_ID", str "User ID", str "UserID",
   str "customer_id", str "Customer_ID", str "User", str "Created By", str "created_by"]

/-- Source lines 680-685: first pass of the Report 2 deposit-column discovery -
scan the table columns in order and return the first whose lower-cased name
contains the lower-cased form of any candidate as a substring. -/
def findColBySubstr (cols : List Str) (opts : List Str) : Option Str :=
  cols.find? (fun col => opts.any (fun opt => containsSub (pyToLower opt) (pyToLower col)))

/-- Source lines 680-702: Report 2 deposit customer-column resolution - the
case-insensitive substring scan over table columns, then (lines 698-702) a
fallback exact first-candidate lookup. -/
def find_deposit_customer_col (cols : List Str) : Option Str :=
  match findColBySubstr cols deposit_customer_options with
  | some c => some c
  | none => find_column cols deposit_customer_options

/-! ### Report 1 (`process_report_1`, source lines 212-605)

The embedding starts from the logical tables after column resolution
(`find_column` renames) and date filtering: an onboarding row carries the
resolved `dsa_mobile`, `customer_mobile` and `full_name` cells; ticket and
scan rows carry the resolved customer cell and the amount already parsed by
`clean_currency_amount` (lines 369-374 / 390-395, a rational); deposit rows
(after the CR transaction-type filter of line 344) carry the customer cell.
All mobile cells go through `safe_str_access` (lines 327-332), which is the
only identifier cleaning Report 1 performs. -/

/-- One row of the onboarding table with its resolved columns. -/
structure OnbRow where
  dsa_mobile : Str
  customer_mobile : Str
  full_name : Str
deriving DecidableEq

/-- The cleaned input tables of `process_report_1`. -/
structure R1Input where
  onboarding : List OnbRow
  tickets : List (Str × ℚ)
  scans : List (Str × ℚ)
  depositors : List Str
deriving DecidableEq

/-- Keep the first row for each key, dropping later duplicates: pandas
`drop_duplicates(subset=...)` and `Series.unique()` semantics.  `seen` is the
accumulator of keys already emitted. -/
def dedupFirstByAux {α : Type} (key : α → Str) (seen : List Str) : List α → List α
  | [] => []
  | x :: xs =>
    if key x ∈ seen then dedupFirstByAux key seen xs
    else x :: dedupFirstByAux key (key x :: seen) xs

/-- pandas `drop_duplicates` keyed by `key`: first occurrence wins. -/
def dedupFirstBy {α : Type} (key : α → Str) (l : List α) : List α :=
  dedupFirstByAux key [] l

/-- Source lines 328-332 and 406-407: mobile columns of the onboarding table
pass through `safe_str_access`, then rows whose `dsa_mobile` strips to the
empty string are removed (customers must be onboarded by a DSA). -/
def r1_onboarding (inp : R1Input) : List OnbRow :=
  (inp.onboarding.map (fun r =>
    { r with dsa_mobile := safe_str_access r.dsa_mobile,
             customer_mobile := safe_str_access r.customer_mobile })).filter
    (fun r => decide (pyStrip r.dsa_mobile ≠ []))

/-- Source lines 440-441: the onboarded-customers table, one row per customer
(`drop_duplicates(subset=["customer_mobile"])`, first occurrence wins). -/
def onboarded_customers (inp : R1Input) : List OnbRow :=
  dedupFirstBy (fun r => r.customer_mobile) (r1_onboarding inp)

/-- Ticket rows with the customer cell cleaned by `safe_str_access` (line 329). -/
def r1_tickets (inp : R1Input) : List (Str × ℚ) :=
  inp.tickets.map (fun t => (safe_str_access t.1, t.2))

/-- Scan rows with the customer cell cleaned by `safe_str_access` (line 330). -/
def r1_scans (inp : R1Input) : List (Str × ℚ) :=
  inp.scans.map (fun t => (safe_str_access t.1, t.2))

/-- Deposit customer cells cleaned by `safe_str_access` (line 329). -/
def r1_depositors (inp : R1Input) : List Str :=
  inp.depositors.map safe_str_access

/-- Source lines 414-417: `ticket_df.groupby("customer_mobile").sum()` merged
into the customer table with missing customers filled with 0 (line 462). -/
def ticket_amount_of (inp : R1Input) (c : Str) : ℚ :=
  (((r1_tickets inp).filter (fun t => decide (t.1 = c))).map Prod.snd).sum

/-- Source line 419 and the fill at line 459: `bought_ticket` is 1 exactly when
the summed ticket amount of the customer is positive. -/
def bought_ticket_of (inp : R1Input) (c : Str) : Nat :=
  if 0 < ticket_amount_of inp c then 1 else 0

/-- Source lines 426-429 merged with fill 0 (line 463): summed scan amount. -/
def scan_amount_of (inp : R1Input) (c : Str) : ℚ :=
  (((r1_scans inp).filter (fun t => decide (t.1 = c))).map Prod.snd).sum

/-- Source line 431 and the fill at line 460: `did_scan` is 1 exactly when the
summed scan amount of the customer is positive. -/
def did_scan_of (inp : R1Input) (c : Str) : Nat :=
  if 0 < scan_amount_of inp c then 1 else 0

/-- Source lines 437 and 453-456, 461: `deposited` is 1 exactly when some
deposit row carries the customer. -/
def deposited_of (inp : R1Input) (c : Str) : Nat :=
  if c ∈ r1_depositors inp then 1 else 0

/-- Source lines 472-488: the three qualification filters (`deposited == 1`;
`bought_ticket == 1 or did_scan == 1`; `ticket_amount > 0 or scan_amount > 0`)
and the final non-empty `dsa_mobile` validation. -/
def qualifiesR1 (inp : R1Input) (r : OnbRow) : Prop :=
  deposited_of inp r.customer_mobile = 1 ∧
  (bought_ticket_of inp r.customer_mobile = 1 ∨ did_scan_of inp r.customer_mobile = 1) ∧
  (0 < ticket_amount_of inp r.customer_mobile ∨ 0 < scan_amount_of inp r.customer_mobile) ∧
  pyStrip r.dsa_mobile ≠ []

instance (inp : R1Input) (r : OnbRow) : Decidable (qualifiesR1 inp r) := by
  unfold qualifiesR1; infer_instance

/-- Source lines 472-488: the qualified-customers table before formatting. -/
def qualified_customers (inp : R1Input) : List OnbRow :=
  (onboarded_customers inp).filter (fun r => decide (qualifiesR1 inp r))

/-- Row order of `sort_values(["dsa_mobile", "customer_mobile"])` (line 492). -/
def r1RowLe (a b : OnbRow) : Prop :=
  a.dsa_mobile < b.dsa_mobile ∨ (a.dsa_mobile = b.dsa_mobile ∧ a.customer_mobile ≤ b.customer_mobile)

instance : DecidableRel r1RowLe := fun a b => by
  unfold r1RowLe; infer_instance

/-- Row order of `sort_values("customer_mobile")` (line 499). -/
def custRowLe (a b : OnbRow) : Prop := a.customer_mobile ≤ b.customer_mobile

instance : DecidableRel custRowLe := fun a b => by
  unfold custRowLe; infer_instance

/-- Source line 492: the qualified table sorted by DSA then customer. -/
def sorted_qualified (inp : R1Input) : List OnbRow :=
  List.insertionSort r1RowLe (qualified_customers inp)

/-- Source line 497: `qualified_customers["dsa_mobile"].unique()` over the
sorted table. -/
def unique_dsas (inp : R1Input) : List Str :=
  dedupFirstBy id ((sorted_qualified inp).map OnbRow.dsa_mobile)

/-- Source line 506: the Report 1 per-customer rate, GMD 40. -/
def fixedRateA : Nat := 40

/-- Source line 967: the Report 2 per-customer rate, GMD 25. -/
def fixedRateB : Nat := 25

/-- One row of the formatted Report 1 output table (lines 510-524 and 530-544).
Summary columns hold `none` where the source writes the empty string `''`. -/
structure R1OutRow where
  dsa_mobile : Str
  customer_mobile : Str
  full_name : Str
  bought_ticket : Nat
  ticket_amount : ℚ
  did_scan : Nat
  scan_amount : ℚ
  deposited : Nat
  customerCount : Option Nat
  depositCount : Option Nat
  ticketCount : Option Nat
  scanCount : Option Nat
  payment : Option Nat
deriving DecidableEq

/-- Source lines 530-544: a plain detail row (summary columns empty). -/
def r1_detail_row (inp : R1Input) (r : OnbRow) : R1OutRow :=
  { dsa_mobile := r.dsa_mobile
    customer_mobile := r.customer_mobile
    full_name := r.full_name
    bought_ticket := bought_ticket_of inp r.customer_mobile
    ticket_amount := ticket_amount_of inp r.customer_mobile
    did_scan := did_scan_of inp r.customer_mobile
    scan_amount := scan_amount_of inp r.customer_mobile
    deposited := deposited_of inp r.customer_mobile
    customerCount := none
    depositCount := none
    ticketCount := none
    scanCount := none
    payment := none }

/-- Source lines 501-525: the first row of a DSA block, carrying the per-DSA
summary computed over the whole block `dc` (customer count, flag sums,
payment = customer count x 40). -/
def r1_summary_row (inp : R1Input) (dc : List OnbRow) (first : OnbRow) : R1OutRow :=
  { r1_detail_row inp first with
      customerCount := some dc.length
      depositCount := some ((dc.map (fun r => deposited_of inp r.customer_mobile)).sum)
      ticketCount := some ((dc.map (fun r => bought_ticket_of inp r.customer_mobile)).sum)
      scanCount := some ((dc.map (fun r => did_scan_of inp r.customer_mobile)).sum)
      payment := some (dc.length * fixedRateA) }

/-- Source lines 497-545: the block of output rows of one DSA - its qualified
customers sorted by customer mobile, the first row carrying the per-DSA
summary. -/
def r1_block (inp : R1Input) (d : Str) : List R1OutRow :=
  match List.insertionSort custRowLe
      ((sorted_qualified inp).filter (fun r => decide (r.dsa_mobile = d))) with
  | [] => []
  | first :: rest =>
    r1_summary_row inp (first :: rest) first :: rest.map (r1_detail_row inp)

/-- Source lines 491-557: the formatted Report 1 qualified-customers table. -/
def report1_rows (inp : R1Input) : List R1OutRow :=
  (unique_dsas inp).flatMap (r1_block inp)

/-! ### Report 2 (`process_report_2`, source lines 607-1078)

The embedding starts from the resolved raw cell values: a deposit row carries
the (customer, authoring DSA) cells, an onboarding row the (customer,
referrer DSA) cells, and ticket / scan rows the customer cell after the
transaction-type filter of lines 860-875.  Cells are `Option Str` (`NaN` is
`none`).  We model the configuration in which the deposit table has no name
column (lines 810-815 find none), so `customer_names` stays empty and every
display name is `Unknown` (line 896). -/

/-- The resolved raw input tables of `process_report_2`. -/
structure R2Input where
  onboarding : List (Option Str × Option Str)
  deposits : List (Option Str × Option Str)
  tickets : List (Option Str)
  scans : List (Option Str)
deriving DecidableEq

/-- Python `dict` assignment `m[k] = v`: replace the value of an existing key,
else append the new binding. -/
def dictInsert {α : Type} (m : List (Str × α)) (k : Str) (v : α) : List (Str × α) :=
  match m with
  | [] => [(k, v)]
  | (k0, v0) :: rest => if k0 = k then (k0, v) :: rest else (k0, v0) :: dictInsert rest k v

/-- Python `dict` lookup (`m.get(k)` / `k in m`). -/
def dictLookup {α : Type} (m : List (Str × α)) (k : Str) : Option α :=
  match m with
  | [] => none
  | (k0, v) :: rest => if k0 = k then some v else dictLookup rest k

/-- Source lines 741-747: both deposit identifier columns cleaned by
`clean_mobile_for_report2`, then rows with a missing or empty customer or DSA
value dropped. -/
def r2_deposits (inp : R2Input) : List (Str × Str) :=
  inp.deposits.filterMap (fun p =>
    match clean_mobile_for_report2 p.1, clean_mobile_for_report2 p.2 with
    | some c, some d => if c ≠ [] ∧ d ≠ [] then some (c, d) else none
    | _, _ => none)

/-- Source lines 785-801: the onboarding map, customer to the DSA who
onboarded them; rows cleaned and filtered like the deposits, later rows
overwriting earlier ones (`onboarding_map[customer_mobile] = dsa_mobile`). -/
def onboarding_map (inp : R2Input) : List (Str × Str) :=
  (inp.onboarding.filterMap (fun p =>
    match clean_mobile_for_report2 p.1, clean_mobile_for_report2 p.2 with
    | some c, some d => if c ≠ [] ∧ d ≠ [] then some (c, d) else none
    | _, _ => none)).foldl (fun m cd => dictInsert m cd.1 cd.2) []

/-- Source line 858 with the dropna of line 911: cleaned ticket customers. -/
def r2_tickets (inp : R2Input) : List Str :=
  inp.tickets.filterMap clean_mobile_for_report2

/-- Source line 868 with the dropna of line 923: cleaned scan customers. -/
def r2_scans (inp : R2Input) : List Str :=
  inp.scans.filterMap clean_mobile_for_report2

/-- Source lines 918-919: `len(customer_tickets)` for one customer. -/
def r2_ticket_count (inp : R2Input) (c : Str) : Nat :=
  ((r2_tickets inp).filter (fun x => decide (x = c))).length

/-- Source lines 930-931: `len(customer_scans)` for one customer. -/
def r2_scan_count (inp : R2Input) (c : Str) : Nat :=
  ((r2_scans inp).filter (fun x => decide (x = c))).length

/-- The per-customer attribution record of `dsa_customers` (lines 895-902). -/
structure CustData where
  full_name : Str
  deposit_count : Nat
  bought_ticket : Nat
  did_scan : Nat
  onboarded_by : Str
  match_status : Str
deriving DecidableEq

/-- The nested dict `dsa_customers`: DSA to customer to record. -/
abbrev DsaMap := List (Str × List (Str × CustData))

/-- Source lines 895-902: the fresh record of a customer first seen in a
deposit (`customer_names` is empty in the modelled configuration, so the
display name is `Unknown`). -/
def initCust (inp : R2Input) (c : Str) : CustData :=
  { full_name := str "Unknown"
    deposit_count := 0
    bought_ticket := 0
    did_scan := 0
    onboarded_by := (dictLookup (onboarding_map inp) c).getD (str "NOT ONBOARDED")
    match_status := if dictLookup (onboarding_map inp) c = none then str "NO ONBOARDING"
                    else str "ONBOARDED" }

/-- Source line 905: `deposit_count += 1` on one record. -/
def bumpDeposit (cu : CustData) : CustData :=
  { cu with deposit_count := cu.deposit_count + 1 }

/-- Source lines 881-905: one iteration of the deposit loop - skip rows with
an empty customer or DSA or a self-deposit, otherwise create the missing
entries and increment the deposit count of the (DSA, customer) record. -/
def addDeposit (inp : R2Input) (m : DsaMap) (c d : Str) : DsaMap :=
  if c = [] ∨ d = [] ∨ c = d then m
  else
    dictInsert m d
      (dictInsert ((dictLookup m d).getD []) c
        (bumpDeposit ((dictLookup ((dictLookup m d).getD []) c).getD (initCust inp c))))

/-- Source lines 878-905: the attribution map built from all deposit rows. -/
def dsa_customers_base (inp : R2Input) : DsaMap :=
  (r2_deposits inp).foldl (fun m cd => addDeposit inp m cd.1 cd.2) []

/-- Source lines 910-919: for every registered customer with ticket activity,
set `bought_ticket` to their ticket row count. -/
def applyTickets (inp : R2Input) (m : DsaMap) : DsaMap :=
  m.map (fun dc => (dc.1, dc.2.map (fun cc =>
    (cc.1, if cc.1 ∈ r2_tickets inp
           then { cc.2 with bought_ticket := r2_ticket_count inp cc.1 }
           else cc.2))))

/-- Source lines 922-931: for every registered customer with scan activity,
set `did_scan` to their scan row count. -/
def applyScans (inp : R2Input) (m : DsaMap) : DsaMap :=
  m.map (fun dc => (dc.1, dc.2.map (fun cc =>
    (cc.1, if cc.1 ∈ r2_scans inp
           then { cc.2 with did_scan := r2_scan_count inp cc.1 }
           else cc.2))))

/-- Source lines 933-942: recompute `match_status` - `NO ONBOARDING` when the
customer has no onboarding record, `MATCH` when the onboarding DSA is the
deposit-authoring DSA, else `MISMATCH`. -/
def finalizeStatus (m : DsaMap) : DsaMap :=
  m.map (fun dc => (dc.1, dc.2.map (fun cc =>
    (cc.1, { cc.2 with match_status :=
      (if cc.2.onboarded_by = str "NOT ONBOARDED" then str "NO ONBOARDING"
       else if cc.2.onboarded_by = dc.1 then str "MATCH"
       else str "MISMATCH") }))))

/-- Source lines 878-942: the finished attribution map of `process_report_2`. -/
def dsa_customers (inp : R2Input) : DsaMap :=
  finalizeStatus (applyScans inp (applyTickets inp (dsa_customers_base inp)))

/-- Source lines 950-953: the Report 2 eligibility filter - `NO ONBOARDING`
status, at least one deposit, and a ticket or scan. -/
def r2Eligible (p : Str × CustData) : Prop :=
  p.2.match_status = str "NO ONBOARDING" ∧ 0 < p.2.deposit_count ∧
    (0 < p.2.bought_ticket ∨ 0 < p.2.did_scan)

instance (p : Str × CustData) : Decidable (r2Eligible p) := by
  unfold r2Eligible; infer_instance

/-- One row of the formatted Report 2 output (lines 972-1023).  Numeric fields
hold `none` and string fields `[]` where the source writes `''`. -/
structure R2OutRow where
  dsa_mobile : Str
  customer_mobile : Str
  full_name : Str
  bought_ticket : Option Nat
  did_scan : Option Nat
  deposited : Option Nat
  onboarded_by : Str
  match_status : Str
  customerCount : Option Nat
  depositCount : Option Nat
  ticketCount : Option Nat
  scanCount : Option Nat
  payment : Option Nat
deriving DecidableEq

/-- Source lines 1009-1023: the all-empty separator row appended after each
DSA block. -/
def r2_sep_row : R2OutRow :=
  { dsa_mobile := []
    customer_mobile := []
    full_name := []
    bought_ticket := none
    did_scan := none
    deposited := none
    onboarded_by := []
    match_status := []
    customerCount := none
    depositCount := none
    ticketCount := none
    scanCount := none
    payment := none }

/-- Source lines 990-1006: a plain customer row (summary columns empty). -/
def r2_detail_row (d : Str) (p : Str × CustData) : R2OutRow :=
  { dsa_mobile := d
    customer_mobile := p.1
    full_name := p.2.full_name
    bought_ticket := some p.2.bought_ticket
    did_scan := some p.2.did_scan
    deposited := some p.2.deposit_count
    onboarded_by := p.2.onboarded_by
    match_status := p.2.match_status
    customerCount := none
    depositCount := none
    ticketCount := none
    scanCount := none
    payment := none }

/-- Order of `no_onboarding_customers.sort(key=lambda x: x[0])` (line 960). -/
def custPairLe (a b : Str × CustData) : Prop := a.1 ≤ b.1

instance : DecidableRel custPairLe := fun a b => by
  unfold custPairLe; infer_instance

/-- Source lines 962-986: the first row of a DSA block, carrying the per-DSA
summary computed over the whole block (payment = customer count x 25). -/
def r2_summary_row (d : Str) (no_onb : List (Str × CustData))
    (first : Str × CustData) : R2OutRow :=
  { r2_detail_row d first with
      customerCount := some no_onb.length
      depositCount := some ((no_onb.map (fun p => p.2.deposit_count)).sum)
      ticketCount := some ((no_onb.map (fun p => p.2.bought_ticket)).sum)
      scanCount := some ((no_onb.map (fun p => p.2.did_scan)).sum)
      payment := some (no_onb.length * fixedRateB) }

/-- Source lines 947-1023: the output block of one DSA - its eligible
customers sorted by mobile, the first row carrying the per-DSA summary, then
one all-empty separator row; a DSA with no eligible customer contributes
nothing. -/
def r2_block (d : Str) (custs : List (Str × CustData)) : List R2OutRow :=
  match List.insertionSort custPairLe (custs.filter (fun p => decide (r2Eligible p))) with
  | [] => []
  | first :: rest =>
    (r2_summary_row d (first :: rest) first :: rest.map (r2_detail_row d)) ++ [r2_sep_row]

/-- Source lines 944-1042: the formatted Report 2 output table. -/
def report2_rows (inp : R2Input) : List R2OutRow :=
  (dsa_customers inp).flatMap (fun dc => r2_block dc.1 dc.2)

/-! ### Payment reconciler (`generate_payment_report`, source lines 1216-1315) -/

/-- Source lines 1222-1245: extract the per-DSA Report 1 payment dict from the
rows that carry summary data (`Customer Count` not empty). -/
def extract_report1_payments (rows : List R1OutRow) : List (Str × ℚ) :=
  rows.foldl (fun m r =>
    if r.customerCount ≠ none then dictInsert m r.dsa_mobile ((r.payment.getD 0 : Nat) : ℚ)
    else m) []

/-- Source lines 1248-1273: extract the per-DSA Report 2 payment dict from the
rows with summary data, skipping rows whose DSA identifier is empty. -/
def extract_report2_payments (rows : List R2OutRow) : List (Str × ℚ) :=
  rows.foldl (fun m r =>
    if r.customerCount ≠ none ∧ r.payment ≠ none then
      if r.dsa_mobile ≠ [] then dictInsert m r.dsa_mobile ((r.payment.getD 0 : Nat) : ℚ)
      else m
    else m) []

/-- Source lines 1276-1279: `sorted(set(keys1 + keys2))` - the union of the
DSA identifiers of both payment dicts, in ascending order. -/
def sorted_dsas (r1 r2 : List (Str × ℚ)) : List Str :=
  List.insertionSort (· ≤ ·) (dedupFirstBy id (r1.map Prod.fst ++ r2.map Prod.fst))

/-- One row of the payment ledger (lines 1284-1289). -/
structure PayRow where
  dsa_mobile : Str
  payment_qualified : ℚ
  payment_not_onboarded : ℚ
  total_payable : ℚ
deriving DecidableEq

/-- Source lines 1278-1289: `payment_records` - one ledger row per DSA of the
union in sorted order, missing payments defaulting to 0, the row total being
the sum of the two payments. -/
def payment_records (r1 r2 : List (Str × ℚ)) : List PayRow :=
  (sorted_dsas r1 r2).map (fun d =>
    { dsa_mobile := d
      payment_qualified := (dictLookup r1 d).getD 0
      payment_not_onboarded := (dictLookup r2 d).getD 0
      total_payable := (dictLookup r1 d).getD 0 + (dictLookup r2 d).getD 0 : PayRow })

/-- Source lines 1276-1308: the payment ledger - the per-DSA records, then,
when any record exists, one synthetic `Total` row holding the column sums. -/
def generate_payment_report (r1 r2 : List (Str × ℚ)) : List PayRow :=
  if payment_records r1 r2 = [] then payment_records r1 r2
  else payment_records r1 r2 ++
    [{ dsa_mobile := str "Total"
       payment_qualified := ((payment_records r1 r2).map PayRow.payment_qualified).sum
       payment_not_onboarded := ((payment_records r1 r2).map PayRow.payment_not_onboarded).sum
       total_payable := ((payment_records r1 r2).map PayRow.total_payable).sum }]

/-- The attribution record of customer `c` under DSA `d`:
`dsa_customers[d][c]` when both keys exist. -/
def custRecord (m : DsaMap) (d c : Str) : Option CustData :=
  (dictLookup m d).bind (fun inner => dictLookup inner c)

/-- The eligible (NO ONBOARDING, deposited, active) customers of DSA `d` in
the finished attribution map. -/
def r2_eligible_customers (inp : R2Input) (d : Str) : List (Str × CustData) :=
  ((dictLookup (dsa_customers inp) d).getD []).filter (fun p => decide (r2Eligible p))

/-! ### Concrete instances used in witnesses and counterexamples -/

/-- A Report 2 input in which customer `1111111` has deposits authored by the
two distinct DSAs `2222222` and `3333333`. -/
def wR2m : R2Input :=
  { onboarding := []
    deposits := [(some (str "1111111"), some (str "2222222")),
                 (some (str "1111111"), some (str "3333333"))]
    tickets := [some (str "1111111")]
    scans := [] }

/-- A small Report 1 input: one onboarded customer who deposited and bought a
ticket of amount 50 (the scenario of spec section 8). -/
def wR1 : R1Input :=
  { onboarding := [{ dsa_mobile := str "7654321", customer_mobile := str "1234567",
                     full_name := str "Awa Bah" }]
    tickets := [(str "1234567", 50)]
    scans := []
    depositors := [str "1234567"] }

/-- A Report 2 input whose deposit, ticket and scan rows carry the three raw
identifier forms of the unification scenario. -/
def wR2u : R2Input :=
  { onboarding := []
    deposits := [(some (str "+220 123-4567"), some (str "9999999"))]
    tickets := [some (str "0001234567")]
    scans := [some (str "1234567")] }

/-- A Report 1 input whose onboarding row carries the raw identifier form
`+220 123-4567` while the deposit row carries the form `1234567`. -/
def wR1x : R1Input :=
  { onboarding := [{ dsa_mobile := str "7654321", customer_mobile := str "+220 123-4567",
                     full_name := str "Awa Bah" }]
    tickets := []
    scans := []
    depositors := [str "1234567"] }

/-! ### Supporting lemmas -/

theorem digitsOnly_idem (l : Str) : digitsOnly (digitsOnly l) = digitsOnly l := by
  simp [digitsOnly, List.filter_filter]

theorem digitsOnly_eq_self {l : Str} (h : ∀ c ∈ l, c.isDigit) : digitsOnly l = l :=
  List.filter_eq_self.mpr (by simpa using h)

theorem mem_digitsOnly_isDigit {l : Str} {c : Char} (h : c ∈ digitsOnly l) : c.isDigit :=
  (List.mem_filter.mp h).2

theorem lastChars_subset (n : Nat) (l : Str) : lastChars n l ⊆ l :=
  List.drop_subset _ l

theorem length_lastChars (n : Nat) (l : Str) :
    (lastChars n l).length = l.length - (l.length - n) := by
  simp [lastChars]

theorem length_lastChars_of_le {n : Nat} {l : Str} (h : n ≤ l.length) :
    (lastChars n l).length = n := by
  rw [length_lastChars]; omega

theorem lastChars_eq_self_of_le {n : Nat} {l : Str} (h : l.length ≤ n) :
    lastChars n l = l := by
  simp [lastChars, Nat.sub_eq_zero_of_le h]

theorem strip220_subset (l : Str) : strip220 l ⊆ l := by
  unfold strip220
  split
  · exact fun c hc => by simp_all
  · exact fun c hc => hc

/-- Shape of every non-`None` output of `clean_mobile_number`: a digit string
of length at most 7. -/
theorem clean_mobile_number_shape {x : Option Str} {c : Str}
    (h : clean_mobile_number x = some c) :
    (∀ ch ∈ c, ch.isDigit) ∧ c.length ≤ 7 := by
  match x with
  | none => simp [clean_mobile_number] at h
  | some s =>
    unfold clean_mobile_number at h
    simp only at h
    split at h
    · rename_i h7
      cases h
      exact ⟨fun ch hch => mem_digitsOnly_isDigit hch, by omega⟩
    · split at h
      · rename_i h7 hgt
        cases h
        refine ⟨fun ch hch => mem_digitsOnly_isDigit (lastChars_subset 7 _ hch), ?_⟩
        rw [length_lastChars_of_le (by omega)]
      · rename_i h7 hgt
        cases h
        exact ⟨fun ch hch => mem_digitsOnly_isDigit hch, by omega⟩

/-- Shape of every non-`None` output of `clean_mobile_for_report2`: a
non-empty digit string of length at most 7. -/
theorem clean_mobile_for_report2_shape {x : Option Str} {c : Str}
    (h : clean_mobile_for_report2 x = some c) :
    (∀ ch ∈ c, ch.isDigit) ∧ c.length ≤ 7 ∧ c ≠ [] := by
  match x with
  | none => simp [clean_mobile_for_report2] at h
  | some s =>
    unfold clean_mobile_for_report2 at h
    simp only at h
    split at h
    · rename_i h7
      cases h
      refine ⟨fun ch hch => mem_digitsOnly_isDigit (strip220_subset _ (lastChars_subset 7 _ hch)),
        ?_, ?_⟩
      · rw [length_lastChars_of_le h7]
      · intro hnil
        have := length_lastChars_of_le h7
        rw [hnil] at this
        simp at this
    · split at h
      · cases h
      · rename_i h7 hne
        cases h
        exact ⟨fun ch hch => mem_digitsOnly_isDigit (strip220_subset _ hch), by omega, hne⟩

/-- Applying `clean_mobile_number` to a digit string of length at most 7
returns it unchanged. -/
theorem clean_mobile_number_fixed {c : Str} (hd : ∀ ch ∈ c, ch.isDigit)
    (hlen : c.length ≤ 7) : clean_mobile_number (some c) = some c := by
  unfold clean_mobile_number
  simp only [digitsOnly_eq_self hd]
  split
  · rfl
  · rw [if_neg (by omega)]

/-- Applying `clean_mobile_for_report2` to a non-empty digit string of length
at most 7 that does not start with `220` returns it unchanged. -/
theorem clean_mobile_for_report2_fixed {c : Str} (hd : ∀ ch ∈ c, ch.isDigit)
    (hlen : c.length ≤ 7) (hne : c ≠ []) (h220 : strip220 c = c) :
    clean_mobile_for_report2 (some c) = some c := by
  unfold clean_mobile_for_report2
  simp only [digitsOnly_eq_self hd, h220]
  by_cases h7 : 7 ≤ c.length
  · rw [if_pos h7, lastChars_eq_self_of_le (by omega)]
  · rw [if_neg h7, if_neg hne]

/-! ### Claims C1 and C2 -/

/-- Claim C1 (corrected): `clean_mobile_number` is idempotent on every input;
`clean_mobile_for_report2` is idempotent on every input whose output is
`None` or whose output does not start with the digits `220` - but not in
general, because a canonical key starting with `220` is stripped again on the
second pass (see the counterexample). -/
theorem claim_C1_normalization_idempotence_amended :
    (∀ x, clean_mobile_number (clean_mobile_number x) = clean_mobile_number x) ∧
    (∀ x c, clean_mobile_for_report2 x = some c → strip220 c = c →
      clean_mobile_for_report2 (clean_mobile_for_report2 x) = clean_mobile_for_report2 x) ∧
    (∀ x, clean_mobile_for_report2 x = none →
      clean_mobile_for_report2 (clean_mobile_for_report2 x) = clean_mobile_for_report2 x) := by
  refine ⟨fun x => ?_, fun x c hx h220 => ?_, fun x hx => ?_⟩
  · match x with
    | none => rfl
    | some s =>
      match hx : clean_mobile_number (some s) with
      | none => rfl
      | some c =>
        obtain ⟨hd, hlen⟩ := clean_mobile_number_shape hx
        exact clean_mobile_number_fixed hd hlen
  · obtain ⟨hd, hlen, hne⟩ := clean_mobile_for_report2_shape hx
    rw [hx, clean_mobile_for_report2_fixed hd hlen hne h220]
  · rw [hx]; rfl

/-- Witness for C1 at a concrete input: the key `5551234` is a fixed point of
`clean_mobile_for_report2`, and both normalizers are idempotent there. -/
theorem claim_C1_witness :
    clean_mobile_number (clean_mobile_number (some (str "555-1234"))) =
      clean_mobile_number (some (str "555-1234")) ∧
    clean_mobile_for_report2 (clean_mobile_for_report2 (some (str "555-1234"))) =
      clean_mobile_for_report2 (some (str "555-1234")) :=
  ⟨claim_C1_normalization_idempotence_amended.1 (some (str "555-1234")),
   claim_C1_normalization_idempotence_amended.2.1 (some (str "555-1234")) (str "5551234")
     (by decide) (by decide)⟩

/-- Counterexample to C1 as stated: the raw identifier `12201234` normalizes
under `clean_mobile_for_report2` to `2201234`, which normalizes again to
`1234`, so the Report 2 normalizer is not idempotent. -/
theorem claim_C1_counterexample :
    clean_mobile_for_report2 (clean_mobile_for_report2 (some (str "12201234"))) ≠
      clean_mobile_for_report2 (some (str "12201234")) := by decide

/-- Claim C2 (corrected): every input whose digit content is at least 7 digits
normalizes under `clean_mobile_number` to a key of length exactly 7; for
`clean_mobile_for_report2` the same holds provided the digit string still has
at least 7 digits after the leading `220` country code is dropped - but not
for every input with 7 or more digits (see the counterexample). -/
theorem claim_C2_canonical_length_amended :
    (∀ s : Str, 7 ≤ numDigits s →
      ∃ c, clean_mobile_number (some s) = some c ∧ c.length = 7) ∧
    (∀ s : Str, 7 ≤ (strip220 (digitsOnly s)).length →
      ∃ c, clean_mobile_for_report2 (some s) = some c ∧ c.length = 7) := by
  constructor
  · intro s h
    unfold numDigits at h
    unfold clean_mobile_number
    simp only
    split
    · exact ⟨_, rfl, by assumption⟩
    · rw [if_pos (by omega)]
      exact ⟨_, rfl, length_lastChars_of_le (by omega)⟩
  · intro s h
    unfold clean_mobile_for_report2
    simp only
    rw [if_pos h]
    exact ⟨_, rfl, length_lastChars_of_le h⟩

/-- Witness for C2 at a concrete input: `123-45678` has 8 digits and both
normalizers produce a 7-character key. -/
theorem claim_C2_witness :
    (∃ c, clean_mobile_number (some (str "123-45678")) = some c ∧ c.length = 7) ∧
    (∃ c, clean_mobile_for_report2 (some (str "123-45678")) = some c ∧ c.length = 7) :=
  ⟨claim_C2_canonical_length_amended.1 (str "123-45678") (by decide),
   claim_C2_canonical_length_amended.2 (str "123-45678") (by decide)⟩

/-- Counterexample to C2 as stated: `2201234` has exactly 7 digits, yet
`clean_mobile_for_report2` strips the leading `220` and returns the
4-character key `1234`. -/
theorem claim_C2_counterexample :
    7 ≤ numDigits (str "2201234") ∧
    clean_mobile_for_report2 (some (str "2201234")) = some (str "1234") ∧
    (str "1234").length ≠ 7 := by decide

/-! ### Claim C9: schema resolution -/

/-- Claim C9 (corrected, for `find_column`): `find_column` returns `some c`
exactly when `c` is the first name of the candidate list that is a column of
the table, under exact string equality, and `none` exactly when no candidate
is a column.  (The Report 2 deposit-column discovery does not follow this
contract; see the counterexample.) -/
theorem claim_C9_find_column_amended :
    (∀ (cols names : List Str) (c : Str),
      find_column cols names = some c ↔
        ∃ l1 l2, names = l1 ++ c :: l2 ∧ c ∈ cols ∧ ∀ n ∈ l1, n ∉ cols) ∧
    (∀ cols names : List Str,
      find_column cols names = none ↔ ∀ n ∈ names, n ∉ cols) := by
  constructor
  · intro cols names c
    induction names with
    | nil =>
      simp only [find_column, List.find?_nil]
      constructor
      · intro h; cases h
      · rintro ⟨l1, l2, h, -, -⟩
        exact absurd h (by simp)
    | cons n ns ih =>
      by_cases hn : n ∈ cols
      · rw [find_column,
          @List.find?_cons_of_pos _ (fun m => cols.contains m) n ns (List.elem_iff.mpr hn)]
        constructor
        · rintro ⟨rfl⟩
          exact ⟨[], ns, rfl, hn, by simp⟩
        · rintro ⟨l1, l2, heq, hc, hl1⟩
          cases l1 with
          | nil => simp at heq; simp [heq.1]
          | cons a l1 =>
            simp only [List.cons_append, List.cons.injEq] at heq
            exact absurd (heq.1 ▸ hn) (hl1 a (by simp))
      · rw [find_column,
          @List.find?_cons_of_neg _ (fun m => cols.contains m) n ns (by simpa using hn)]
        rw [find_column] at ih
        rw [ih]
        constructor
        · rintro ⟨l1, l2, rfl, hc, hl1⟩
          exact ⟨n :: l1, l2, rfl, hc, by
            intro m hm
            rcases List.mem_cons.mp hm with rfl | hm
            · exact hn
            · exact hl1 m hm⟩
        · rintro ⟨l1, l2, heq, hc, hl1⟩
          cases l1 with
          | nil =>
            simp only [List.nil_append, List.cons.injEq] at heq
            exact absurd (heq.1 ▸ hc) hn
          | cons a l1 =>
            simp only [List.cons_append, List.cons.injEq] at heq
            exact ⟨l1, l2, heq.2, hc, fun m hm => hl1 m (by simp [hm])⟩
  · intro cols names
    simp only [find_column, List.find?_eq_none, List.elem_iff]

/-- Witness for C9 at concrete tables: on columns `[A, Mobile]` with candidate
priority `[Mobile, A]`, resolution returns `Mobile` (first candidate present),
and on columns `[Status]` it reports not-found. -/
theorem claim_C9_witness :
    find_column [str "A", str "Mobile"] [str "Mobile", str "A"] = some (str "Mobile") ∧
    find_column [str "Status"] [str "Mobile", str "A"] = none :=
  ⟨((claim_C9_find_column_amended.1 [str "A", str "Mobile"] [str "Mobile", str "A"]
      (str "Mobile")).mpr ⟨[], [str "A"], by decide, by decide, by decide⟩),
   ((claim_C9_find_column_amended.2 [str "Status"] [str "Mobile", str "A"]).mpr (by decide))⟩

/-- Counterexample to C9 as stated: the Report 2 deposit-column discovery
resolves the column `THE_USER_ID_COL` by case-insensitive substring matching
even though no candidate name is exactly present in the table, where exact
first-match resolution (`find_column`) reports not-found. -/
theorem claim_C9_counterexample :
    find_deposit_customer_col [str "Status", str "THE_USER_ID_COL"] =
      some (str "THE_USER_ID_COL") ∧
    find_column [str "Status", str "THE_USER_ID_COL"] deposit_customer_options = none ∧
    (∀ n ∈ deposit_customer_options, n ∉ [str "Status", str "THE_USER_ID_COL"]) := by decide

/-! ### Supporting lemmas for Report 1 -/

theorem mem_of_mem_dedupFirstByAux {α : Type} {key : α → Str} {seen : List Str}
    {l : List α} {x : α} (h : x ∈ dedupFirstByAux key seen l) : x ∈ l := by
  induction l generalizing seen with
  | nil => cases h
  | cons y ys ih =>
    rw [dedupFirstByAux] at h
    split at h
    · exact List.mem_cons_of_mem _ (ih h)
    · rcases List.mem_cons.mp h with rfl | h
      · exact List.mem_cons_self _ _
      · exact List.mem_cons_of_mem _ (ih h)

theorem mem_of_mem_dedupFirstBy {α : Type} {key : α → Str} {l : List α} {x : α}
    (h : x ∈ dedupFirstBy key l) : x ∈ l :=
  mem_of_mem_dedupFirstByAux h

theorem mem_dedupFirstByAux_id {seen l : List Str} {k : Str} :
    k ∈ dedupFirstByAux id seen l ↔ k ∈ l ∧ k ∉ seen := by
  induction l generalizing seen with
  | nil => simp [dedupFirstByAux]
  | cons y ys ih =>
    rw [dedupFirstByAux]
    simp only [id_eq]
    split
    · rename_i hy
      rw [ih]
      constructor
      · rintro ⟨h1, h2⟩
        exact ⟨List.mem_cons_of_mem _ h1, h2⟩
      · rintro ⟨h1, h2⟩
        rcases List.mem_cons.mp h1 with rfl | h1
        · exact absurd hy h2
        · exact ⟨h1, h2⟩
    · rename_i hy
      constructor
      · intro h
        rcases List.mem_cons.mp h with rfl | h
        · exact ⟨List.mem_cons_self _ _, hy⟩
        · obtain ⟨h1, h2⟩ := ih.mp h
          exact ⟨List.mem_cons_of_mem _ h1,
            fun hk => h2 (List.mem_cons_of_mem _ hk)⟩
      · rintro ⟨h1, h2⟩
        by_cases hky : k = y
        · subst hky; exact List.mem_cons_self _ _
        · rcases List.mem_cons.mp h1 with rfl | h1
          · exact absurd rfl hky
          · refine List.mem_cons_of_mem _ (ih.mpr ⟨h1, fun hk => ?_⟩)
            rcases List.mem_cons.mp hk with h | h
            · exact hky h
            · exact h2 h

theorem mem_dedupFirstBy_id {l : List Str} {k : Str} :
    k ∈ dedupFirstBy id l ↔ k ∈ l := by
  rw [dedupFirstBy, mem_dedupFirstByAux_id]
  simp

theorem mem_onboarded_mem_r1 {inp : R1Input} {r : OnbRow}
    (h : r ∈ onboarded_customers inp) : r ∈ r1_onboarding inp :=
  mem_of_mem_dedupFirstBy h

theorem onboarded_strip_ne {inp : R1Input} {r : OnbRow}
    (h : r ∈ onboarded_customers inp) : pyStrip r.dsa_mobile ≠ [] := by
  have h2 := (List.mem_filter.mp (mem_onboarded_mem_r1 h)).2
  exact of_decide_eq_true h2

theorem bought_ticket_iff (inp : R1Input) (c : Str) :
    bought_ticket_of inp c = 1 ↔ 0 < ticket_amount_of inp c := by
  unfold bought_ticket_of
  split <;> simp_all

theorem did_scan_iff (inp : R1Input) (c : Str) :
    did_scan_of inp c = 1 ↔ 0 < scan_amount_of inp c := by
  unfold did_scan_of
  split <;> simp_all

theorem qualifiesR1_iff (inp : R1Input) (r : OnbRow) :
    qualifiesR1 inp r ↔
      deposited_of inp r.customer_mobile = 1 ∧
      (0 < ticket_amount_of inp r.customer_mobile ∨ 0 < scan_amount_of inp r.customer_mobile) ∧
      pyStrip r.dsa_mobile ≠ [] := by
  unfold qualifiesR1
  rw [bought_ticket_iff, did_scan_iff]
  tauto

/-- Membership characterization of the pre-formatting qualified table. -/
theorem mem_qualified_iff (inp : R1Input) (d c : Str) :
    (∃ r ∈ qualified_customers inp, r.dsa_mobile = d ∧ r.customer_mobile = c) ↔
      ((∃ r ∈ onboarded_customers inp, r.dsa_mobile = d ∧ r.customer_mobile = c) ∧
       deposited_of inp c = 1 ∧
       (0 < ticket_amount_of inp c ∨ 0 < scan_amount_of inp c)) := by
  unfold qualified_customers
  constructor
  · rintro ⟨r, hr, rfl, rfl⟩
    have hm := List.mem_filter.mp hr
    have hq := of_decide_eq_true hm.2
    rw [qualifiesR1_iff] at hq
    exact ⟨⟨r, hm.1, rfl, rfl⟩, hq.1, hq.2.1⟩
  · rintro ⟨⟨r, hr, rfl, rfl⟩, hdep, hamt⟩
    refine ⟨r, List.mem_filter.mpr ⟨hr, decide_eq_true ?_⟩, rfl, rfl⟩
    rw [qualifiesR1_iff]
    exact ⟨hdep, hamt, onboarded_strip_ne hr⟩

/-- The (DSA, customer) pairs of one formatted block are those of the sorted
per-DSA slice of the qualified table. -/
theorem mem_r1_block_pairs (inp : R1Input) (d : Str) (p : Str × Str) :
    p ∈ (r1_block inp d).map (fun row => (row.dsa_mobile, row.customer_mobile)) ↔
      ∃ r ∈ (sorted_qualified inp).filter (fun r => decide (r.dsa_mobile = d)),
        (r.dsa_mobile, r.customer_mobile) = p := by
  unfold r1_block
  cases h : List.insertionSort custRowLe
      ((sorted_qualified inp).filter (fun r => decide (r.dsa_mobile = d))) with
  | nil =>
    have hnil : (sorted_qualified inp).filter (fun r => decide (r.dsa_mobile = d)) = [] := by
      have hp := List.perm_insertionSort custRowLe
        ((sorted_qualified inp).filter (fun r => decide (r.dsa_mobile = d)))
      rw [h] at hp
      exact hp.symm.eq_nil
    simp [hnil, h]
  | cons f rest =>
    simp only [List.map_cons, List.map_map]
    have hmem : ∀ q : OnbRow,
        (q ∈ (sorted_qualified inp).filter (fun r => decide (r.dsa_mobile = d))) ↔
          q ∈ f :: rest := by
      intro q
      rw [← h, List.mem_insertionSort _]
    constructor
    · intro hpmem
      rcases List.mem_cons.mp hpmem with heq | hdet
      · refine ⟨f, (hmem f).mpr (List.mem_cons_self _ _), ?_⟩
        rw [heq]
        simp [r1_summary_row, r1_detail_row]
      · obtain ⟨r, hr, hrp⟩ := List.mem_map.mp hdet
        refine ⟨r, (hmem r).mpr (List.mem_cons_of_mem _ hr), ?_⟩
        rw [← hrp]
        simp [r1_detail_row]
    · rintro ⟨r, hr, rfl⟩
      rcases List.mem_cons.mp ((hmem r).mp hr) with rfl | hr2
      · refine List.mem_cons.mpr (Or.inl ?_)
        simp [r1_summary_row, r1_detail_row]
      · refine List.mem_cons_of_mem _ (List.mem_map.mpr ⟨r, hr2, ?_⟩)
        simp [r1_detail_row]

/-- Membership characterization of the formatted Report 1 table: a (DSA,
customer) pair appears exactly when it appears in the qualified table. -/
theorem mem_report1_pairs (inp : R1Input) (d c : Str) :
    (∃ row ∈ report1_rows inp, row.dsa_mobile = d ∧ row.customer_mobile = c) ↔
      ∃ r ∈ qualified_customers inp, r.dsa_mobile = d ∧ r.customer_mobile = c := by
  constructor
  · rintro ⟨row, hrow, rfl, rfl⟩
    obtain ⟨d', hd', hblock⟩ := List.mem_flatMap.mp hrow
    have hpair : (row.dsa_mobile, row.customer_mobile) ∈
        (r1_block inp d').map (fun row => (row.dsa_mobile, row.customer_mobile)) :=
      List.mem_map_of_mem _ hblock
    rw [mem_r1_block_pairs] at hpair
    obtain ⟨r, hr, hrp⟩ := hpair
    have hrq : r ∈ qualified_customers inp :=
      (List.mem_insertionSort _).mp (List.mem_filter.mp hr).1
    exact ⟨r, hrq, congrArg Prod.fst hrp, congrArg Prod.snd hrp⟩
  · rintro ⟨r, hr, rfl, rfl⟩
    have hs : r ∈ sorted_qualified inp := (List.mem_insertionSort _).mpr hr
    have hd : r.dsa_mobile ∈ unique_dsas inp := by
      rw [unique_dsas, mem_dedupFirstBy_id]
      exact List.mem_map_of_mem _ hs
    have hpm : (r.dsa_mobile, r.customer_mobile) ∈
        (r1_block inp r.dsa_mobile).map (fun row => (row.dsa_mobile, row.customer_mobile)) := by
      rw [mem_r1_block_pairs]
      exact ⟨r, List.mem_filter.mpr ⟨hs, decide_eq_true rfl⟩, rfl⟩
    obtain ⟨row, hrow, hrp⟩ := List.mem_map.mp hpm
    refine ⟨row, List.mem_flatMap.mpr ⟨r.dsa_mobile, hd, hrow⟩, ?_, ?_⟩
    · exact congrArg Prod.fst hrp
    · exact congrArg Prod.snd hrp

/-- Every Report 1 row carrying a payment value is the summary row of its DSA,
and its payment equals the number of the qualified customers of that DSA
times `fixedRateA`. -/
theorem report1_payment_eq (inp : R1Input) {row : R1OutRow}
    (hrow : row ∈ report1_rows inp) {p : Nat} (hp : row.payment = some p) :
    p = ((qualified_customers inp).filter
          (fun r => decide (r.dsa_mobile = row.dsa_mobile))).length * fixedRateA := by
  obtain ⟨d', hd', hblock⟩ := List.mem_flatMap.mp hrow
  revert hblock
  unfold r1_block
  cases h : List.insertionSort custRowLe
      ((sorted_qualified inp).filter (fun r => decide (r.dsa_mobile = d'))) with
  | nil => intro hblock; cases hblock
  | cons f rest =>
    intro hblock
    have hlen : (f :: rest).length =
        ((qualified_customers inp).filter (fun r => decide (r.dsa_mobile = d'))).length := by
      have h1 := (List.perm_insertionSort custRowLe
        ((sorted_qualified inp).filter (fun r => decide (r.dsa_mobile = d')))).length_eq
      rw [h] at h1
      have h2 := ((List.perm_insertionSort r1RowLe (qualified_customers inp)).filter
        (fun r => decide (r.dsa_mobile = d'))).length_eq
      rw [sorted_qualified] at h1
      omega
    rcases List.mem_cons.mp hblock with rfl | hdet
    · have hf : f ∈ (sorted_qualified inp).filter (fun r => decide (r.dsa_mobile = d')) := by
        refine (List.mem_insertionSort custRowLe).mp ?_
        rw [h]
        exact List.mem_cons_self _ _
      have hfd : f.dsa_mobile = d' := of_decide_eq_true (List.mem_filter.mp hf).2
      have hrowd : (r1_summary_row inp (f :: rest) f).dsa_mobile = d' := by
        simpa [r1_summary_row, r1_detail_row] using hfd
      have hp2 : (r1_summary_row inp (f :: rest) f).payment =
          some ((f :: rest).length * fixedRateA) := by
        simp [r1_summary_row, r1_detail_row]
      rw [hp2] at hp
      cases hp
      rw [hrowd, hlen]
    · obtain ⟨r, hr, rfl⟩ := List.mem_map.mp hdet
      simp [r1_detail_row] at hp

/-! ### Claim C4: Report A eligibility and payment -/

/-- Claim C4 (confirmed): a (DSA, customer) pair appears in the Report 1
qualified-customers output exactly when the customer has that DSA as declared
onboarding agent (a row of the deduplicated onboarded-customers table),
deposited, and has positive summed ticket amount or positive summed scan
amount; and every payment value carried by an output row equals the number of
that DSA's qualified customers times the fixed rate `fixedRateA` (40). -/
theorem claim_C4_report1_eligibility_payment (inp : R1Input) :
    (∀ d c : Str,
      (∃ row ∈ report1_rows inp, row.dsa_mobile = d ∧ row.customer_mobile = c) ↔
        ((∃ r ∈ onboarded_customers inp, r.dsa_mobile = d ∧ r.customer_mobile = c) ∧
         deposited_of inp c = 1 ∧
         (0 < ticket_amount_of inp c ∨ 0 < scan_amount_of inp c))) ∧
    (∀ row ∈ report1_rows inp, ∀ p : Nat, row.payment = some p →
      p = ((qualified_customers inp).filter
            (fun r => decide (r.dsa_mobile = row.dsa_mobile))).length * fixedRateA) :=
  ⟨fun d c => (mem_report1_pairs inp d c).trans (mem_qualified_iff inp d c),
   fun _ hrow p hp => report1_payment_eq inp hrow hp⟩

/-- Witness for C4: in the input `wR1` the onboarded, deposited customer
`1234567` with a ticket of amount 50 appears under agent `7654321`. -/
theorem claim_C4_witness :
    ∃ row ∈ report1_rows wR1,
      row.dsa_mobile = str "7654321" ∧ row.customer_mobile = str "1234567" :=
  ((claim_C4_report1_eligibility_payment wR1).1 (str "7654321") (str "1234567")).mpr
    ⟨by decide, by decide, Or.inl (by show (0:ℚ) < ([(50:ℚ)]).sum; simp)⟩

/-! ### Claim C8: qualification monotonicity -/

/-- Claim C8 (confirmed): a customer appearing in the Report 1 output keeps
appearing after one ticket row or one scan row of positive amount for that
customer is added (`c0` is the raw cell, which cleans to the customer key
`c`); eligibility never flips from eligible to ineligible. -/
theorem claim_C8_monotonicity (inp : R1Input) (d c c0 : Str) (a : ℚ)
    (ha : 0 < a) (hc0 : safe_str_access c0 = c)
    (h : ∃ row ∈ report1_rows inp, row.dsa_mobile = d ∧ row.customer_mobile = c) :
    (∃ row ∈ report1_rows { inp with tickets := inp.tickets ++ [(c0, a)] },
        row.dsa_mobile = d ∧ row.customer_mobile = c) ∧
    (∃ row ∈ report1_rows { inp with scans := inp.scans ++ [(c0, a)] },
        row.dsa_mobile = d ∧ row.customer_mobile = c) := by
  rw [mem_report1_pairs inp d c, mem_qualified_iff inp d c] at h
  obtain ⟨honb, hdep, hamt⟩ := h
  have ht : ticket_amount_of { inp with tickets := inp.tickets ++ [(c0, a)] } c
      = ticket_amount_of inp c + a := by
    unfold ticket_amount_of r1_tickets
    simp [List.filter_append, hc0]
  have hs : scan_amount_of { inp with scans := inp.scans ++ [(c0, a)] } c
      = scan_amount_of inp c + a := by
    unfold scan_amount_of r1_scans
    simp [List.filter_append, hc0]
  constructor
  · rw [mem_report1_pairs _ d c, mem_qualified_iff _ d c]
    refine ⟨honb, hdep, ?_⟩
    rcases hamt with hx | hx
    · exact Or.inl (by rw [ht]; exact add_pos hx ha)
    · exact Or.inr hx
  · rw [mem_report1_pairs _ d c, mem_qualified_iff _ d c]
    refine ⟨honb, hdep, ?_⟩
    rcases hamt with hx | hx
    · exact Or.inl hx
    · exact Or.inr (by rw [hs]; exact add_pos hx ha)

/-- Witness for C8: adding a ticket row and a scan row of amount 3 for the
already-qualified customer `1234567` of `wR1` keeps the customer in the
report. -/
theorem claim_C8_witness :
    (∃ row ∈ report1_rows { wR1 with tickets := wR1.tickets ++ [(str "1234567", 3)] },
        row.dsa_mobile = str "7654321" ∧ row.customer_mobile = str "1234567") ∧
    (∃ row ∈ report1_rows { wR1 with scans := wR1.scans ++ [(str "1234567", 3)] },
        row.dsa_mobile = str "7654321" ∧ row.customer_mobile = str "1234567") :=
  claim_C8_monotonicity wR1 (str "7654321") (str "1234567") (str "1234567") 3
    (by norm_num) (by decide)
    (((mem_report1_pairs wR1 (str "7654321") (str "1234567")).trans
        (mem_qualified_iff wR1 (str "7654321") (str "1234567"))).mpr
      ⟨by decide, by decide, Or.inl (by show (0:ℚ) < ([(50:ℚ)]).sum; simp)⟩)

/-! ### Claim C7: identifier unification scenario -/

/-- Claim C7 (corrected): the three raw forms `+220 123-4567`, `1234567` and
`0001234567` all normalize to the canonical key `1234567` under both
normalizer functions, and the Report 2 pipeline, which cleans every
identifier cell with `clean_mobile_for_report2`, merges deposit, ticket and
scan rows carrying the three different forms into one customer record.  (The
Report 1 pipeline does not unify them; see the counterexample.) -/
theorem claim_C7_identifier_unification_amended :
    (clean_mobile_number (some (str "+220 123-4567")) = some (str "1234567") ∧
     clean_mobile_number (some (str "1234567")) = some (str "1234567") ∧
     clean_mobile_number (some (str "0001234567")) = some (str "1234567")) ∧
    (clean_mobile_for_report2 (some (str "+220 123-4567")) = some (str "1234567") ∧
     clean_mobile_for_report2 (some (str "1234567")) = some (str "1234567") ∧
     clean_mobile_for_report2 (some (str "0001234567")) = some (str "1234567")) ∧
    dsa_customers wR2u = [(str "9999999",
      [(str "1234567",
        { full_name := str "Unknown", deposit_count := 1, bought_ticket := 1, did_scan := 1,
          onboarded_by := str "NOT ONBOARDED", match_status := str "NO ONBOARDING" })])] := by
  decide

/-- Counterexample to C7 as stated: the Report 1 pipeline cleans identifier
cells only with `safe_str_access` (whitespace strip), so the onboarding row
carrying `+220 123-4567` and the deposit row carrying `1234567` are treated
as different customers: the onboarded customer's deposited flag stays 0 and
the qualified output is empty. -/
theorem claim_C7_counterexample :
    safe_str_access (str "+220 123-4567") ≠ safe_str_access (str "1234567") ∧
    (∃ r ∈ onboarded_customers wR1x, r.customer_mobile = str "+220 123-4567") ∧
    deposited_of wR1x (str "+220 123-4567") = 0 ∧
    deposited_of wR1x (str "1234567") = 1 ∧
    qualified_customers wR1x = [] ∧
    report1_rows wR1x = [] := by decide

/-! ### Supporting lemmas for the Python dict model -/

theorem dictLookup_insert_self {α : Type} (m : List (Str × α)) (k : Str) (v : α) :
    dictLookup (dictInsert m k v) k = some v := by
  induction m with
  | nil => simp [dictInsert, dictLookup]
  | cons p rest ih =>
    obtain ⟨k0, v0⟩ := p
    rw [dictInsert]
    split
    · rename_i h
      rw [dictLookup, if_pos h]
    · rename_i h
      rw [dictLookup, if_neg h]
      exact ih

theorem dictLookup_insert_of_ne {α : Type} (m : List (Str × α)) {k k' : Str} (v : α)
    (hne : k' ≠ k) : dictLookup (dictInsert m k v) k' = dictLookup m k' := by
  induction m with
  | nil =>
    simp only [dictInsert, dictLookup]
    rw [if_neg (fun h => hne h.symm)]
  | cons p rest ih =>
    obtain ⟨k0, v0⟩ := p
    rw [dictInsert]
    split
    · rename_i h0
      have hk0 : ¬ k0 = k' := fun hh => hne (hh ▸ h0)
      simp only [dictLookup]
      rw [if_neg hk0, if_neg hk0]
    · rename_i h0
      simp only [dictLookup]
      by_cases hk0 : k0 = k'
      · rw [if_pos hk0, if_pos hk0]
      · rw [if_neg hk0, if_neg hk0]
        exact ih

theorem dictLookup_mem {α : Type} {m : List (Str × α)} {k : Str} {v : α}
    (h : dictLookup m k = some v) : (k, v) ∈ m := by
  induction m with
  | nil => cases h
  | cons p rest ih =>
    obtain ⟨k0, v0⟩ := p
    rw [dictLookup] at h
    split at h
    · rename_i h0
      cases h
      exact h0 ▸ List.mem_cons_self _ _
    · exact List.mem_cons_of_mem _ (ih h)

theorem dictLookup_of_mem_nodup {α : Type} {m : List (Str × α)}
    (hnd : (m.map Prod.fst).Nodup) {k : Str} {v : α} (h : (k, v) ∈ m) :
    dictLookup m k = some v := by
  induction m with
  | nil => cases h
  | cons p rest ih =>
    obtain ⟨k0, v0⟩ := p
    rw [List.map_cons, List.nodup_cons] at hnd
    simp only [dictLookup]
    rcases List.mem_cons.mp h with heq | hmem
    · obtain ⟨hk, hv⟩ := Prod.ext_iff.mp heq
      rw [if_pos hk.symm]
      exact congrArg some hv.symm
    · have hk : k ∈ rest.map Prod.fst := List.mem_map.mpr ⟨(k, v), hmem, rfl⟩
      rw [if_neg (fun hh => hnd.1 (by rw [hh]; exact hk))]
      exact ih hnd.2 hmem

theorem map_fst_dictInsert {α : Type} (m : List (Str × α)) (k : Str) (v : α) :
    (dictInsert m k v).map Prod.fst =
      if k ∈ m.map Prod.fst then m.map Prod.fst else m.map Prod.fst ++ [k] := by
  induction m with
  | nil =>
    rw [dictInsert, if_neg (by simp)]
    rfl
  | cons p rest ih =>
    obtain ⟨k0, v0⟩ := p
    rw [dictInsert]
    split
    · rename_i h0
      rw [if_pos (show k ∈ List.map Prod.fst ((k0, v0) :: rest) by
        rw [List.map_cons]
        exact List.mem_cons.mpr (Or.inl h0.symm))]
      simp
    · rename_i h0
      rw [List.map_cons, List.map_cons, ih]
      by_cases hk : k ∈ rest.map Prod.fst
      · rw [if_pos hk, if_pos (List.mem_cons_of_mem _ hk)]
      · rw [if_neg hk, if_neg ?_]
        · rfl
        · intro hh
          rcases List.mem_cons.mp hh with hh | hh
          · exact h0 hh.symm
          · exact hk hh

theorem nodup_map_fst_dictInsert {α : Type} {m : List (Str × α)}
    (hnd : (m.map Prod.fst).Nodup) (k : Str) (v : α) :
    ((dictInsert m k v).map Prod.fst).Nodup := by
  rw [map_fst_dictInsert]
  split
  · exact hnd
  · rename_i hk
    rw [List.nodup_append]
    refine ⟨hnd, List.nodup_singleton _, fun a ha hb => ?_⟩
    rw [List.mem_singleton.mp hb] at ha
    exact hk ha

theorem mem_dictInsert {α : Type} {m : List (Str × α)} {k : Str} {v : α} {q : Str × α}
    (h : q ∈ dictInsert m k v) : q ∈ m ∨ q = (k, v) := by
  induction m with
  | nil =>
    rw [dictInsert] at h
    rcases List.mem_cons.mp h with rfl | hq
    · exact Or.inr rfl
    · cases hq
  | cons p rest ih =>
    obtain ⟨k0, v0⟩ := p
    rw [dictInsert] at h
    split at h
    · rename_i h0
      rcases List.mem_cons.mp h with rfl | hq
      · exact Or.inr (by rw [h0])
      · exact Or.inl (List.mem_cons_of_mem _ hq)
    · rcases List.mem_cons.mp h with rfl | hq
      · exact Or.inl (List.mem_cons_self _ _)
      · rcases ih hq with hq | hq
        · exact Or.inl (List.mem_cons_of_mem _ hq)
        · exact Or.inr hq

/-- Key-indexed lookups commute with value transformations of the dict. -/
theorem dictLookup_map_val {α β : Type} (g : Str → α → β) (m : List (Str × α)) (k : Str) :
    dictLookup (m.map (fun p => (p.1, g p.1 p.2))) k = (dictLookup m k).map (g k) := by
  induction m with
  | nil => rfl
  | cons p rest ih =>
    obtain ⟨k0, v0⟩ := p
    rw [List.map_cons]
    by_cases h : k0 = k
    · subst h
      rw [dictLookup, if_pos rfl, dictLookup, if_pos rfl]
      rfl
    · rw [dictLookup, if_neg h, dictLookup, if_neg h]
      exact ih

/-! ### Supporting lemmas for the Report 2 attribution map -/

/-- The bumped record of one deposit step, as seen through `custRecord`. -/
theorem custRecord_getD_inner (m : DsaMap) (inp : R2Input) (d c : Str) :
    (dictLookup ((dictLookup m d).getD []) c).getD (initCust inp c) =
      (custRecord m d c).getD (initCust inp c) := by
  cases hm : dictLookup m d with
  | none => simp [custRecord, hm, dictLookup]
  | some inner => simp [custRecord, hm]

/-- One deposit-loop step either leaves a record untouched or bumps exactly
the record of the processed (DSA, customer) pair. -/
theorem custRecord_addDeposit_spec (inp : R2Input) (m : DsaMap) (c d d' c' : Str) :
    (¬(c = [] ∨ d = [] ∨ c = d) ∧ d' = d ∧ c' = c ∧
      custRecord (addDeposit inp m c d) d' c' =
        some (bumpDeposit ((custRecord m d c).getD (initCust inp c)))) ∨
    (custRecord (addDeposit inp m c d) d' c' = custRecord m d' c') := by
  by_cases hskip : c = [] ∨ d = [] ∨ c = d
  · right
    unfold addDeposit
    rw [if_pos hskip]
  · by_cases hd : d' = d
    · by_cases hc : c' = c
      · left
        subst hd; subst hc
        refine ⟨hskip, rfl, rfl, ?_⟩
        unfold addDeposit
        rw [if_neg hskip]
        unfold custRecord
        rw [dictLookup_insert_self, Option.some_bind, dictLookup_insert_self,
          custRecord_getD_inner]
        rfl
      · right
        subst hd
        unfold addDeposit
        rw [if_neg hskip]
        unfold custRecord
        rw [dictLookup_insert_self, Option.some_bind,
          dictLookup_insert_of_ne _ _ (fun hh => hc hh)]
        cases hm : dictLookup m d' with
        | none => simp [hm, dictLookup]
        | some inner => simp [hm]
    · right
      unfold addDeposit
      rw [if_neg hskip]
      unfold custRecord
      rw [dictLookup_insert_of_ne _ _ (fun hh => hd hh)]

/-- Existence of an attribution record after folding a deposit list: a record
for (DSA `d`, customer `c`) exists exactly when it already existed or some
processed pair is `(c, d)` with non-empty distinct components. -/
theorem custRecord_foldl_ne_none (inp : R2Input) (l : List (Str × Str)) (m : DsaMap)
    (d c : Str) :
    custRecord (l.foldl (fun m cd => addDeposit inp m cd.1 cd.2) m) d c ≠ none ↔
      (custRecord m d c ≠ none ∨
        ∃ q ∈ l, q.1 = c ∧ q.2 = d ∧ ¬(q.1 = [] ∨ q.2 = [] ∨ q.1 = q.2)) := by
  induction l generalizing m with
  | nil => simp
  | cons q0 rest ih =>
    rw [List.foldl_cons, ih, List.exists_mem_cons_iff]
    rcases custRecord_addDeposit_spec inp m q0.1 q0.2 d c with ⟨hcond, hdd, hcc, heq⟩ | heq
    · rw [heq]
      simp only [ne_eq, reduceCtorEq, not_false_eq_true, true_or, true_iff]
      right; left
      exact ⟨hcc.symm, hdd.symm, hcond⟩
    · rw [heq]
      constructor
      · rintro (h | h)
        · exact Or.inl h
        · exact Or.inr (Or.inr h)
      · rintro (h | ⟨h1, h2, h3⟩ | h)
        · exact Or.inl h
        · subst h1; subst h2
          left
          unfold addDeposit at heq
          rw [if_neg h3] at heq
          unfold custRecord at heq
          rw [dictLookup_insert_self, Option.some_bind, dictLookup_insert_self] at heq
          intro hnone
          unfold custRecord at hnone
          rw [hnone] at heq
          cases heq
        · exact Or.inr h

theorem r2_deposits_components (inp : R2Input) {q : Str × Str}
    (h : q ∈ r2_deposits inp) : q.1 ≠ [] ∧ q.2 ≠ [] := by
  unfold r2_deposits at h
  rw [List.mem_filterMap] at h
  obtain ⟨a, _, hfa⟩ := h
  rcases h1 : clean_mobile_for_report2 a.1 with _ | c
  · rw [h1] at hfa
    cases hfa
  · rcases h2 : clean_mobile_for_report2 a.2 with _ | dd
    · rw [h1, h2] at hfa
      cases hfa
    · rw [h1, h2] at hfa
      change (if c ≠ [] ∧ dd ≠ [] then some (c, dd) else none) = some q at hfa
      by_cases hcond : c ≠ [] ∧ dd ≠ []
      · rw [if_pos hcond] at hfa
        cases hfa
        exact hcond
      · rw [if_neg hcond] at hfa
        cases hfa

/-- Existence characterization of the base attribution map. -/
theorem custRecord_base_ne_none (inp : R2Input) (d c : Str) :
    custRecord (dsa_customers_base inp) d c ≠ none ↔
      ((c, d) ∈ r2_deposits inp ∧ c ≠ d) := by
  unfold dsa_customers_base
  rw [custRecord_foldl_ne_none]
  constructor
  · rintro (h | ⟨q, hq, h1, h2, h3⟩)
    · exact absurd (show custRecord [] d c = none from rfl) h
    · refine ⟨?_, fun hcd => h3 (Or.inr (Or.inr ?_))⟩
      · have : q = (c, d) := Prod.ext_iff.mpr ⟨h1, h2⟩
        exact this ▸ hq
      · rw [h1, h2]; exact hcd
  · rintro ⟨hmem, hne⟩
    right
    refine ⟨(c, d), hmem, rfl, rfl, ?_⟩
    obtain ⟨hc, hd⟩ := r2_deposits_components inp hmem
    rintro (h | h | h)
    · exact hc h
    · exact hd h
    · exact hne h

/-- Shape of every record of the base attribution map: fresh fields, a
positive deposit count, and the onboarding lookup result. -/
theorem custRecord_base_shape (inp : R2Input) (d c : Str) (cu : CustData)
    (h : custRecord (dsa_customers_base inp) d c = some cu) :
    cu.full_name = str "Unknown" ∧ 0 < cu.deposit_count ∧ cu.bought_ticket = 0 ∧
    cu.did_scan = 0 ∧
    cu.onboarded_by = (dictLookup (onboarding_map inp) c).getD (str "NOT ONBOARDED") := by
  unfold dsa_customers_base at h
  suffices H : ∀ (l : List (Str × Str)) (m : DsaMap),
      (∀ d c cu, custRecord m d c = some cu →
        cu.full_name = str "Unknown" ∧ 0 < cu.deposit_count ∧ cu.bought_ticket = 0 ∧
        cu.did_scan = 0 ∧
        cu.onboarded_by = (dictLookup (onboarding_map inp) c).getD (str "NOT ONBOARDED")) →
      ∀ d c cu,
        custRecord (l.foldl (fun m cd => addDeposit inp m cd.1 cd.2) m) d c = some cu →
        cu.full_name = str "Unknown" ∧ 0 < cu.deposit_count ∧ cu.bought_ticket = 0 ∧
        cu.did_scan = 0 ∧
        cu.onboarded_by = (dictLookup (onboarding_map inp) c).getD (str "NOT ONBOARDED") by
    exact H (r2_deposits inp) []
      (fun d c cu hh => by simp [custRecord, dictLookup] at hh) d c cu h
  intro l
  induction l with
  | nil => intro m hm; exact hm
  | cons q0 rest ih =>
    intro m hm
    rw [List.foldl_cons]
    apply ih
    intro d1 c1 cu1 h1
    rcases custRecord_addDeposit_spec inp m q0.1 q0.2 d1 c1 with ⟨_, _, hcc, heq⟩ | heq
    · rw [heq] at h1
      cases h1
      subst hcc
      cases hcur : custRecord m q0.2 q0.1 with
      | none =>
        simp [bumpDeposit, initCust]
      | some old =>
        obtain ⟨h1, h2, h3, h4, h5⟩ := hm q0.2 q0.1 old hcur
        simp only [Option.getD_some, bumpDeposit]
        exact ⟨h1, by omega, h3, h4, h5⟩
    · rw [heq] at h1
      exact hm d1 c1 cu1 h1

/-- Both levels of the base attribution map have duplicate-free keys. -/
theorem dsa_customers_base_nodup (inp : R2Input) :
    ((dsa_customers_base inp).map Prod.fst).Nodup ∧
    ∀ q ∈ dsa_customers_base inp, (q.2.map Prod.fst).Nodup := by
  unfold dsa_customers_base
  suffices H : ∀ (l : List (Str × Str)) (m : DsaMap),
      (m.map Prod.fst).Nodup → (∀ q ∈ m, (q.2.map Prod.fst).Nodup) →
      ((l.foldl (fun m cd => addDeposit inp m cd.1 cd.2) m).map Prod.fst).Nodup ∧
      ∀ q ∈ l.foldl (fun m cd => addDeposit inp m cd.1 cd.2) m,
        (q.2.map Prod.fst).Nodup by
    exact H _ [] (by simp) (by simp)
  intro l
  induction l with
  | nil => intro m h1 h2; exact ⟨h1, h2⟩
  | cons q0 rest ih =>
    intro m h1 h2
    rw [List.foldl_cons]
    apply ih
    · unfold addDeposit
      split
      · exact h1
      · exact nodup_map_fst_dictInsert h1 _ _
    · intro q hq
      unfold addDeposit at hq
      split at hq
      · exact h2 q hq
      · rcases mem_dictInsert hq with hq | rfl
        · exact h2 q hq
        · apply nodup_map_fst_dictInsert
          cases hm : dictLookup m q0.2 with
          | none => simp
          | some inner => exact h2 _ (dictLookup_mem hm)

/-- Every value of the onboarding map is a canonical key of length at most 7
(so never the sentinel `NOT ONBOARDED`). -/
theorem onboarding_map_values (inp : R2Input) :
    ∀ q ∈ onboarding_map inp, q.2.length ≤ 7 := by
  unfold onboarding_map
  suffices H : ∀ (l : List (Str × Str)) (m : List (Str × Str)),
      (∀ q ∈ m, q.2.length ≤ 7) → (∀ q ∈ l, q.2.length ≤ 7) →
      ∀ q ∈ l.foldl (fun m cd => dictInsert m cd.1 cd.2) m, q.2.length ≤ 7 by
    refine H _ [] (by simp) ?_
    intro q hq
    rw [List.mem_filterMap] at hq
    obtain ⟨a, _, hfa⟩ := hq
    rcases h1 : clean_mobile_for_report2 a.1 with _ | c
    · rw [h1] at hfa
      cases hfa
    · rcases h2 : clean_mobile_for_report2 a.2 with _ | dd
      · rw [h1, h2] at hfa
        cases hfa
      · rw [h1, h2] at hfa
        change (if c ≠ [] ∧ dd ≠ [] then some (c, dd) else none) = some q at hfa
        by_cases hcond : c ≠ [] ∧ dd ≠ []
        · rw [if_pos hcond] at hfa
          cases hfa
          exact (clean_mobile_for_report2_shape h2).2.1
        · rw [if_neg hcond] at hfa
          cases hfa
  intro l
  induction l with
  | nil => intro m hm _; exact hm
  | cons q0 rest ih =>
    intro m hm hl
    rw [List.foldl_cons]
    apply ih
    · intro q hq
      rcases mem_dictInsert hq with hq | rfl
      · exact hm q hq
      · exact hl q0 (List.mem_cons_self _ _)
    · intro q hq
      exact hl q (List.mem_cons_of_mem _ hq)

theorem r2_ticket_count_pos (inp : R2Input) (c : Str) :
    0 < r2_ticket_count inp c ↔ c ∈ r2_tickets inp := by
  unfold r2_ticket_count
  rw [List.length_pos]
  constructor
  · intro h
    obtain ⟨x, hx⟩ := List.exists_mem_of_ne_nil _ h
    obtain ⟨hx1, hx2⟩ := List.mem_filter.mp hx
    exact (of_decide_eq_true hx2) ▸ hx1
  · intro h hnil
    have := List.filter_eq_nil.mp hnil c h
    simp at this

theorem r2_scan_count_pos (inp : R2Input) (c : Str) :
    0 < r2_scan_count inp c ↔ c ∈ r2_scans inp := by
  unfold r2_scan_count
  rw [List.length_pos]
  constructor
  · intro h
    obtain ⟨x, hx⟩ := List.exists_mem_of_ne_nil _ h
    obtain ⟨hx1, hx2⟩ := List.mem_filter.mp hx
    exact (of_decide_eq_true hx2) ▸ hx1
  · intro h hnil
    have := List.filter_eq_nil.mp hnil c h
    simp at this

theorem custRecord_applyTickets (inp : R2Input) (m : DsaMap) (d c : Str) :
    custRecord (applyTickets inp m) d c = (custRecord m d c).map
      (fun cu => if c ∈ r2_tickets inp
                 then { cu with bought_ticket := r2_ticket_count inp c } else cu) := by
  unfold custRecord applyTickets
  rw [dictLookup_map_val (fun _ inner => inner.map (fun cc =>
    (cc.1, if cc.1 ∈ r2_tickets inp
           then { cc.2 with bought_ticket := r2_ticket_count inp cc.1 } else cc.2))) m d]
  cases ho : dictLookup m d with
  | none => rfl
  | some inner =>
    rw [Option.map_some', Option.some_bind, Option.some_bind]
    rw [dictLookup_map_val (fun c2 cu => if c2 ∈ r2_tickets inp
      then { cu with bought_ticket := r2_ticket_count inp c2 } else cu) inner c]

theorem custRecord_applyScans (inp : R2Input) (m : DsaMap) (d c : Str) :
    custRecord (applyScans inp m) d c = (custRecord m d c).map
      (fun cu => if c ∈ r2_scans inp
                 then { cu with did_scan := r2_scan_count inp c } else cu) := by
  unfold custRecord applyScans
  rw [dictLookup_map_val (fun _ inner => inner.map (fun cc =>
    (cc.1, if cc.1 ∈ r2_scans inp
           then { cc.2 with did_scan := r2_scan_count inp cc.1 } else cc.2))) m d]
  cases ho : dictLookup m d with
  | none => rfl
  | some inner =>
    rw [Option.map_some', Option.some_bind, Option.some_bind]
    rw [dictLookup_map_val (fun c2 cu => if c2 ∈ r2_scans inp
      then { cu with did_scan := r2_scan_count inp c2 } else cu) inner c]

theorem custRecord_finalizeStatus (m : DsaMap) (d c : Str) :
    custRecord (finalizeStatus m) d c = (custRecord m d c).map
      (fun cu => { cu with match_status :=
        (if cu.onboarded_by = str "NOT ONBOARDED" then str "NO ONBOARDING"
         else if cu.onboarded_by = d then str "MATCH"
         else str "MISMATCH") }) := by
  unfold custRecord finalizeStatus
  have hout : dictLookup (m.map (fun dc => (dc.1, dc.2.map (fun cc =>
      (cc.1, { cc.2 with match_status :=
        (if cc.2.onboarded_by = str "NOT ONBOARDED" then str "NO ONBOARDING"
         else if cc.2.onboarded_by = dc.1 then str "MATCH"
         else str "MISMATCH") }))))) d
      = (dictLookup m d).map (fun inner => inner.map (fun cc =>
        (cc.1, { cc.2 with match_status :=
          (if cc.2.onboarded_by = str "NOT ONBOARDED" then str "NO ONBOARDING"
           else if cc.2.onboarded_by = d then str "MATCH"
           else str "MISMATCH") }))) :=
    dictLookup_map_val (fun d2 inner => inner.map (fun cc =>
      (cc.1, { cc.2 with match_status :=
        (if cc.2.onboarded_by = str "NOT ONBOARDED" then str "NO ONBOARDING"
         else if cc.2.onboarded_by = d2 then str "MATCH"
         else str "MISMATCH") }))) m d
  rw [hout]
  cases ho : dictLookup m d with
  | none => rfl
  | some inner =>
    rw [Option.map_some', Option.some_bind, Option.some_bind]
    have hin : dictLookup (inner.map (fun cc => (cc.1, { cc.2 with match_status :=
        (if cc.2.onboarded_by = str "NOT ONBOARDED" then str "NO ONBOARDING"
         else if cc.2.onboarded_by = d then str "MATCH"
         else str "MISMATCH") }))) c
        = (dictLookup inner c).map (fun cu => { cu with match_status :=
          (if cu.onboarded_by = str "NOT ONBOARDED" then str "NO ONBOARDING"
           else if cu.onboarded_by = d then str "MATCH"
           else str "MISMATCH") }) :=
      dictLookup_map_val (fun _ cu => { cu with match_status :=
        (if cu.onboarded_by = str "NOT ONBOARDED" then str "NO ONBOARDING"
         else if cu.onboarded_by = d then str "MATCH"
         else str "MISMATCH") }) inner c
    rw [hin]

/-- Existence transfers from the base map to the finished attribution map. -/
theorem custRecord_ne_none_iff (inp : R2Input) (d c : Str) :
    custRecord (dsa_customers inp) d c ≠ none ↔
      custRecord (dsa_customers_base inp) d c ≠ none := by
  unfold dsa_customers
  rw [custRecord_finalizeStatus, custRecord_applyScans, custRecord_applyTickets]
  cases custRecord (dsa_customers_base inp) d c <;> simp

/-- Specification of every record of the finished attribution map: positive
deposit count, activity counters mirroring ticket and scan membership, and
`NO ONBOARDING` status exactly when the customer has no onboarding record. -/
theorem custRecord_final_spec (inp : R2Input) (d c : Str) (cu : CustData)
    (h : custRecord (dsa_customers inp) d c = some cu) :
    0 < cu.deposit_count ∧
    (0 < cu.bought_ticket ↔ c ∈ r2_tickets inp) ∧
    (0 < cu.did_scan ↔ c ∈ r2_scans inp) ∧
    (cu.match_status = str "NO ONBOARDING" ↔ dictLookup (onboarding_map inp) c = none) := by
  unfold dsa_customers at h
  rw [custRecord_finalizeStatus, custRecord_applyScans, custRecord_applyTickets,
    Option.map_map, Option.map_map] at h
  obtain ⟨cu0, hb, hcu⟩ := Option.map_eq_some'.mp h
  obtain ⟨_, hdep, hbuy, hdid, honb⟩ := custRecord_base_shape inp d c cu0 hb
  subst hcu
  simp only [Function.comp]
  have hvne : ∀ v, dictLookup (onboarding_map inp) c = some v → ¬v = str "NOT ONBOARDED" := by
    intro v hv hveq
    have hlen : v.length ≤ 7 := by
      simpa using onboarding_map_values inp _ (dictLookup_mem hv)
    rw [hveq] at hlen
    exact absurd hlen (by decide)
  by_cases ht : c ∈ r2_tickets inp <;> by_cases hsc : c ∈ r2_scans inp <;>
    simp only [ht, hsc, if_true, if_false] <;>
    refine ⟨hdep, ?_, ?_, ?_⟩
  · exact iff_true_intro ((r2_ticket_count_pos inp c).mpr ht)
  · exact iff_true_intro ((r2_scan_count_pos inp c).mpr hsc)
  · cases hon : dictLookup (onboarding_map inp) c with
    | none =>
      rw [hon, Option.getD_none] at honb
      simp [honb]
    | some v =>
      rw [hon, Option.getD_some] at honb
      simp only [honb]
      rw [if_neg (hvne v hon)]
      constructor
      · intro hst
        split at hst <;> exact absurd hst (by decide)
      · intro hst
        cases hst
  · exact iff_true_intro ((r2_ticket_count_pos inp c).mpr ht)
  · rw [hdid]
    simp [hsc]
  · cases hon : dictLookup (onboarding_map inp) c with
    | none =>
      rw [hon, Option.getD_none] at honb
      simp [honb]
    | some v =>
      rw [hon, Option.getD_some] at honb
      simp only [honb]
      rw [if_neg (hvne v hon)]
      constructor
      · intro hst
        split at hst <;> exact absurd hst (by decide)
      · intro hst
        cases hst
  · rw [hbuy]
    simp [ht]
  · exact iff_true_intro ((r2_scan_count_pos inp c).mpr hsc)
  · cases hon : dictLookup (onboarding_map inp) c with
    | none =>
      rw [hon, Option.getD_none] at honb
      simp [honb]
    | some v =>
      rw [hon, Option.getD_some] at honb
      simp only [honb]
      rw [if_neg (hvne v hon)]
      constructor
      · intro hst
        split at hst <;> exact absurd hst (by decide)
      · intro hst
        cases hst
  · rw [hbuy]
    simp [ht]
  · rw [hdid]
    simp [hsc]
  · cases hon : dictLookup (onboarding_map inp) c with
    | none =>
      rw [hon, Option.getD_none] at honb
      simp [honb]
    | some v =>
      rw [hon, Option.getD_some] at honb
      simp only [honb]
      rw [if_neg (hvne v hon)]
      constructor
      · intro hst
        split at hst <;> exact absurd hst (by decide)
      · intro hst
        cases hst

/-- Per-record value transformations preserve duplicate-freeness of both key
levels of the attribution map. -/
theorem nodup_mapRecords (t : Str → Str → CustData → CustData) {m : DsaMap}
    (h1 : (m.map Prod.fst).Nodup) (h2 : ∀ q ∈ m, (q.2.map Prod.fst).Nodup) :
    ((m.map (fun dc => (dc.1, dc.2.map (fun cc => (cc.1, t dc.1 cc.1 cc.2))))).map
      Prod.fst).Nodup ∧
    ∀ q ∈ m.map (fun dc => (dc.1, dc.2.map (fun cc => (cc.1, t dc.1 cc.1 cc.2)))),
      (q.2.map Prod.fst).Nodup := by
  constructor
  · rw [List.map_map]
    exact h1
  · intro q hq
    obtain ⟨q0, hq0, rfl⟩ := List.mem_map.mp hq
    show ((q0.2.map _).map Prod.fst).Nodup
    rw [List.map_map]
    exact h2 q0 hq0

/-- Both levels of the finished attribution map have duplicate-free keys. -/
theorem dsa_customers_nodup (inp : R2Input) :
    ((dsa_customers inp).map Prod.fst).Nodup ∧
    ∀ q ∈ dsa_customers inp, (q.2.map Prod.fst).Nodup := by
  obtain ⟨h1, h2⟩ := dsa_customers_base_nodup inp
  have s1 := nodup_mapRecords (fun _ c2 cu =>
    if c2 ∈ r2_tickets inp then { cu with bought_ticket := r2_ticket_count inp c2 } else cu)
    h1 h2
  have s2 := nodup_mapRecords (fun _ c2 cu =>
    if c2 ∈ r2_scans inp then { cu with did_scan := r2_scan_count inp c2 } else cu)
    s1.1 s1.2
  have s3 := nodup_mapRecords (fun d2 _ cu => { cu with match_status :=
    (if cu.onboarded_by = str "NOT ONBOARDED" then str "NO ONBOARDING"
     else if cu.onboarded_by = d2 then str "MATCH"
     else str "MISMATCH") }) s2.1 s2.2
  exact s3

/-- Every row of one Report 2 block is the separator or carries an eligible
customer of that DSA. -/
theorem mem_r2_block (d : Str) (custs : List (Str × CustData)) (row : R2OutRow)
    (hrow : row ∈ r2_block d custs) :
    row = r2_sep_row ∨
      ∃ p ∈ custs.filter (fun p => decide (r2Eligible p)),
        row.dsa_mobile = d ∧ row.customer_mobile = p.1 := by
  revert hrow
  unfold r2_block
  cases h : List.insertionSort custPairLe (custs.filter (fun p => decide (r2Eligible p))) with
  | nil =>
    intro hrow
    cases hrow
  | cons f rest =>
    intro hrow
    have hmem : ∀ q : Str × CustData,
        q ∈ f :: rest → q ∈ custs.filter (fun p => decide (r2Eligible p)) := by
      intro q hq
      refine (List.mem_insertionSort custPairLe).mp ?_
      rw [h]
      exact hq
    rcases List.mem_append.mp hrow with hmain | hsep
    · rcases List.mem_cons.mp hmain with rfl | hdet
      · refine Or.inr ⟨f, hmem f (List.mem_cons_self _ _), ?_, ?_⟩ <;>
          simp [r2_summary_row, r2_detail_row]
      · obtain ⟨q, hq, rfl⟩ := List.mem_map.mp hdet
        refine Or.inr ⟨q, hmem q (List.mem_cons_of_mem _ hq), ?_, ?_⟩ <;>
          simp [r2_detail_row]
    · exact Or.inl (List.mem_singleton.mp hsep)

/-- Every eligible customer of a DSA yields a row of that block. -/
theorem mem_r2_block_of (d : Str) (custs : List (Str × CustData))
    (q : Str × CustData) (hq : q ∈ custs.filter (fun p => decide (r2Eligible p))) :
    ∃ row ∈ r2_block d custs, row.dsa_mobile = d ∧ row.customer_mobile = q.1 := by
  have hs : q ∈ List.insertionSort custPairLe
      (custs.filter (fun p => decide (r2Eligible p))) :=
    (List.mem_insertionSort custPairLe).mpr hq
  unfold r2_block
  cases h : List.insertionSort custPairLe (custs.filter (fun p => decide (r2Eligible p))) with
  | nil =>
    rw [h] at hs
    cases hs
  | cons f rest =>
    rw [h] at hs
    rcases List.mem_cons.mp hs with rfl | hrest
    · refine ⟨r2_summary_row d (q :: rest) q,
        List.mem_append_left _ (List.mem_cons_self _ _), ?_, ?_⟩ <;>
        simp [r2_summary_row, r2_detail_row]
    · refine ⟨r2_detail_row d q,
        List.mem_append_left _ (List.mem_cons_of_mem _ (List.mem_map_of_mem _ hrest)), ?_, ?_⟩ <;>
        simp [r2_detail_row]

/-- Every Report 2 row carrying a payment value is the summary row of its
DSA, and its payment equals the number of that DSA's eligible customers times
`fixedRateB`. -/
theorem report2_payment_eq (inp : R2Input) {row : R2OutRow}
    (hrow : row ∈ report2_rows inp) {p : Nat} (hp : row.payment = some p) :
    p = (r2_eligible_customers inp row.dsa_mobile).length * fixedRateB := by
  obtain ⟨dc, hdc, hblock⟩ := List.mem_flatMap.mp hrow
  have hlk : dictLookup (dsa_customers inp) dc.1 = some dc.2 :=
    dictLookup_of_mem_nodup (dsa_customers_nodup inp).1 (by cases dc; exact hdc)
  revert hblock
  unfold r2_block
  cases h : List.insertionSort custPairLe (dc.2.filter (fun p => decide (r2Eligible p))) with
  | nil =>
    intro hblock
    cases hblock
  | cons f rest =>
    intro hblock
    have hlen : (f :: rest).length =
        (r2_eligible_customers inp dc.1).length := by
      have h1 := (List.perm_insertionSort custPairLe
        (dc.2.filter (fun p => decide (r2Eligible p)))).length_eq
      rw [h] at h1
      unfold r2_eligible_customers
      rw [hlk]
      exact h1
    rcases List.mem_append.mp hblock with hmain | hsep
    · rcases List.mem_cons.mp hmain with rfl | hdet
      · have hp2 : (r2_summary_row dc.1 (f :: rest) f).payment =
            some ((f :: rest).length * fixedRateB) := by
          simp [r2_summary_row, r2_detail_row]
        rw [hp2] at hp
        cases hp
        have hd : (r2_summary_row dc.1 (f :: rest) f).dsa_mobile = dc.1 := by
          simp [r2_summary_row, r2_detail_row]
        rw [hd, hlen]
      · obtain ⟨q, _, rfl⟩ := List.mem_map.mp hdet
        simp [r2_detail_row] at hp
    · rw [List.mem_singleton.mp hsep] at hp
      simp [r2_sep_row] at hp

/-- Value transformations preserve the key of every entry. -/
theorem keys_mapRecords (t : Str → Str → CustData → CustData) {m : DsaMap}
    {q : Str × List (Str × CustData)}
    (hq : q ∈ m.map (fun dc => (dc.1, dc.2.map (fun cc => (cc.1, t dc.1 cc.1 cc.2))))) :
    ∃ q0 ∈ m, q.1 = q0.1 := by
  obtain ⟨q0, h, rfl⟩ := List.mem_map.mp hq
  exact ⟨q0, h, rfl⟩

/-- Every DSA key of the base attribution map is non-empty. -/
theorem dsa_customers_base_keys (inp : R2Input) :
    ∀ q ∈ dsa_customers_base inp, q.1 ≠ [] := by
  unfold dsa_customers_base
  suffices H : ∀ (l : List (Str × Str)) (m : DsaMap), (∀ q ∈ m, q.1 ≠ []) →
      ∀ q ∈ l.foldl (fun m cd => addDeposit inp m cd.1 cd.2) m, q.1 ≠ [] by
    exact H _ [] (by simp)
  intro l
  induction l with
  | nil => intro m hm; exact hm
  | cons q0 rest ih =>
    intro m hm
    rw [List.foldl_cons]
    apply ih
    intro q hq
    unfold addDeposit at hq
    split at hq
    · exact hm q hq
    · rename_i hskip
      rcases mem_dictInsert hq with hq | rfl
      · exact hm q hq
      · exact fun hd => hskip (Or.inr (Or.inl hd))

/-- Every DSA key of the finished attribution map is non-empty. -/
theorem dsa_customers_keys (inp : R2Input) :
    ∀ q ∈ dsa_customers inp, q.1 ≠ [] := by
  intro q hq
  obtain ⟨q2, hq2, he2⟩ := keys_mapRecords (fun d2 _ cu => { cu with match_status :=
    (if cu.onboarded_by = str "NOT ONBOARDED" then str "NO ONBOARDING"
     else if cu.onboarded_by = d2 then str "MATCH"
     else str "MISMATCH") }) hq
  obtain ⟨q1, hq1, he1⟩ := keys_mapRecords (fun _ c2 cu =>
    if c2 ∈ r2_scans inp then { cu with did_scan := r2_scan_count inp c2 } else cu) hq2
  obtain ⟨q0, hq0, he0⟩ := keys_mapRecords (fun _ c2 cu =>
    if c2 ∈ r2_tickets inp then { cu with bought_ticket := r2_ticket_count inp c2 } else cu) hq1
  rw [he2, he1, he0]
  exact dsa_customers_base_keys inp q0 hq0

/-- Rows whose DSA identifier is empty contribute nothing to the Report 2
payment extraction, so dropping them does not change the extracted dict. -/
theorem extract_report2_payments_filter (rows : List R2OutRow) :
    extract_report2_payments rows =
      extract_report2_payments (rows.filter (fun row => decide (row.dsa_mobile ≠ []))) := by
  unfold extract_report2_payments
  suffices H : ∀ m : List (Str × ℚ),
      rows.foldl (fun m r =>
        if r.customerCount ≠ none ∧ r.payment ≠ none then
          if r.dsa_mobile ≠ [] then dictInsert m r.dsa_mobile ((r.payment.getD 0 : Nat) : ℚ)
          else m
        else m) m =
      (rows.filter (fun row => decide (row.dsa_mobile ≠ []))).foldl (fun m r =>
        if r.customerCount ≠ none ∧ r.payment ≠ none then
          if r.dsa_mobile ≠ [] then dictInsert m r.dsa_mobile ((r.payment.getD 0 : Nat) : ℚ)
          else m
        else m) m from H []
  induction rows with
  | nil => intro m; rfl
  | cons r rest ih =>
    intro m
    rw [List.foldl_cons, List.filter_cons]
    by_cases hd : r.dsa_mobile ≠ []
    · rw [if_pos (show decide (r.dsa_mobile ≠ []) = true from decide_eq_true hd),
        List.foldl_cons]
      exact ih _
    · have hd2 : r.dsa_mobile = [] := not_not.mp hd
      rw [if_neg (show ¬decide (r.dsa_mobile ≠ []) = true by simp [hd2])]
      have hstep : (if r.customerCount ≠ none ∧ r.payment ≠ none then
          if r.dsa_mobile ≠ [] then dictInsert m r.dsa_mobile ((r.payment.getD 0 : Nat) : ℚ)
          else m
        else m) = m := by
        by_cases hc : r.customerCount ≠ none ∧ r.payment ≠ none
        · rw [if_pos hc, if_neg hd]
        · rw [if_neg hc]
      rw [hstep]
      exact ih m

/-! ### Claim C3: attribution uniqueness -/

/-- Claim C3 (corrected): the finished attribution map has exactly one record
per (DSA, customer) pair that ever occurs in a cleaned deposit row with
distinct components - the keys of both levels are duplicate-free - but a
customer funded by several distinct DSAs owns one record under each of them,
not a single first-writer record (see the counterexample). -/
theorem claim_C3_attribution_amended (inp : R2Input) :
    (∀ d c : Str, custRecord (dsa_customers inp) d c ≠ none ↔
      ((c, d) ∈ r2_deposits inp ∧ c ≠ d)) ∧
    ((dsa_customers inp).map Prod.fst).Nodup ∧
    (∀ q ∈ dsa_customers inp, (q.2.map Prod.fst).Nodup) :=
  ⟨fun d c => (custRecord_ne_none_iff inp d c).trans (custRecord_base_ne_none inp d c),
   (dsa_customers_nodup inp).1, (dsa_customers_nodup inp).2⟩

/-- Witness for C3: in `wR2m` the deposit of customer `1111111` authored by
DSA `2222222` produces an attribution record. -/
theorem claim_C3_witness :
    custRecord (dsa_customers wR2m) (str "2222222") (str "1111111") ≠ none :=
  ((claim_C3_attribution_amended wR2m).1 (str "2222222") (str "1111111")).mpr
    ⟨by decide, by decide⟩

/-- Counterexample to C3 as stated: customer `1111111` has deposits authored
by the two distinct DSAs `2222222` and `3333333`, and the attribution map
holds a record under each of them - not exactly one record for the customer,
and no first-writer-wins tie-break. -/
theorem claim_C3_counterexample :
    custRecord (dsa_customers wR2m) (str "2222222") (str "1111111") ≠ none ∧
    custRecord (dsa_customers wR2m) (str "3333333") (str "1111111") ≠ none ∧
    str "2222222" ≠ str "3333333" := by decide

/-! ### Claim C5: Report B eligibility and payment -/

/-- Claim C5 (confirmed): a (DSA, customer) pair appears in the Report 2
output exactly when the attribution record of the pair exists with status
`NO ONBOARDING`, a positive deposit count, and a positive ticket or scan
count; every payment value carried by an output row equals the number of
that DSA's eligible customers times `fixedRateB` (25); and
`fixedRateB < fixedRateA`. -/
theorem claim_C5_report2_eligibility_payment (inp : R2Input) :
    (∀ d c : Str, c ≠ [] →
      ((∃ row ∈ report2_rows inp, row.dsa_mobile = d ∧ row.customer_mobile = c) ↔
        ∃ cu, custRecord (dsa_customers inp) d c = some cu ∧
          cu.match_status = str "NO ONBOARDING" ∧ 0 < cu.deposit_count ∧
          (0 < cu.bought_ticket ∨ 0 < cu.did_scan))) ∧
    (∀ row ∈ report2_rows inp, ∀ p : Nat, row.payment = some p →
      p = (r2_eligible_customers inp row.dsa_mobile).length * fixedRateB) ∧
    fixedRateB < fixedRateA := by
  refine ⟨?_, fun _ hrow p hp => report2_payment_eq inp hrow hp, by decide⟩
  intro d c hc
  constructor
  · rintro ⟨row, hrow, rfl, rfl⟩
    obtain ⟨dc, hdc, hblock⟩ := List.mem_flatMap.mp hrow
    rcases mem_r2_block dc.1 dc.2 row hblock with rfl | ⟨q, hq, hd, hcm⟩
    · exact absurd rfl hc
    · obtain ⟨hqm, hqe⟩ := List.mem_filter.mp hq
      have helig := of_decide_eq_true hqe
      have houter : dictLookup (dsa_customers inp) dc.1 = some dc.2 :=
        dictLookup_of_mem_nodup (dsa_customers_nodup inp).1 (by cases dc; exact hdc)
      have hinner : dictLookup dc.2 q.1 = some q.2 := by
        refine dictLookup_of_mem_nodup ((dsa_customers_nodup inp).2 dc hdc) ?_
        cases q
        exact hqm
      refine ⟨q.2, ?_, helig.1, helig.2.1, helig.2.2⟩
      rw [hd, hcm]
      unfold custRecord
      rw [houter, Option.some_bind]
      exact hinner
  · rintro ⟨cu, hcu, hstat, hdep, hact⟩
    unfold custRecord at hcu
    obtain ⟨custs, houter, hinner⟩ := Option.bind_eq_some.mp hcu
    have hdcmem : (d, custs) ∈ dsa_customers inp := dictLookup_mem houter
    have hqmem : (c, cu) ∈ custs.filter (fun p => decide (r2Eligible p)) := by
      refine List.mem_filter.mpr ⟨dictLookup_mem hinner, decide_eq_true ?_⟩
      exact ⟨hstat, hdep, hact⟩
    obtain ⟨row, hrow, hrd, hrc⟩ := mem_r2_block_of d custs (c, cu) hqmem
    exact ⟨row, List.mem_flatMap.mpr ⟨(d, custs), hdcmem, hrow⟩, hrd, hrc⟩

/-- Witness for C5: in `wR2u` the non-onboarded, deposited and active
customer `1234567` appears under DSA `9999999`. -/
theorem claim_C5_witness :
    ∃ row ∈ report2_rows wR2u,
      row.dsa_mobile = str "9999999" ∧ row.customer_mobile = str "1234567" :=
  ((claim_C5_report2_eligibility_payment wR2u).1 (str "9999999") (str "1234567")
    (by decide)).mpr
    ⟨{ full_name := str "Unknown", deposit_count := 1, bought_ticket := 1, did_scan := 1,
       onboarded_by := str "NOT ONBOARDED", match_status := str "NO ONBOARDING" },
     by decide, by decide, by decide, Or.inl (by decide)⟩

/-! ### Claim C10: separator rows -/

/-- Claim C10 (confirmed): the Report 2 output decomposes into per-DSA blocks
of rows with non-empty DSA identifiers, each followed by one all-empty
separator row; a row with an empty DSA identifier is always the separator
row, whose count and payment fields are all empty; and the payment extraction
of `generate_payment_report` is unchanged when rows with an empty DSA
identifier are dropped. -/
theorem claim_C10_separator_rows (inp : R2Input) :
    (∃ blocks : List (List R2OutRow),
      report2_rows inp = blocks.flatMap (fun b => b ++ [r2_sep_row]) ∧
      ∀ b ∈ blocks, b ≠ [] ∧ ∀ row ∈ b, row.dsa_mobile ≠ []) ∧
    (∀ row ∈ report2_rows inp, row.dsa_mobile = [] → row = r2_sep_row) ∧
    r2_sep_row.customerCount = none ∧ r2_sep_row.payment = none ∧
    r2_sep_row.customer_mobile = [] ∧
    extract_report2_payments (report2_rows inp) =
      extract_report2_payments ((report2_rows inp).filter
        (fun row => decide (row.dsa_mobile ≠ []))) := by
  refine ⟨?_, ?_, rfl, rfl, rfl, extract_report2_payments_filter _⟩
  · refine ⟨(dsa_customers inp).filterMap (fun dc =>
      match List.insertionSort custPairLe (dc.2.filter (fun p => decide (r2Eligible p))) with
      | [] => none
      | f :: rest => some (r2_summary_row dc.1 (f :: rest) f ::
          rest.map (r2_detail_row dc.1))), ?_, ?_⟩
    · unfold report2_rows
      induction dsa_customers inp with
      | nil => rfl
      | cons dc l ih =>
        rw [List.flatMap_cons, List.filterMap_cons]
        cases h : List.insertionSort custPairLe (dc.2.filter (fun p => decide (r2Eligible p))) with
        | nil =>
          have hb : r2_block dc.1 dc.2 = [] := by
            unfold r2_block
            rw [h]
          rw [hb, ih]
          rfl
        | cons f rest =>
          have hb : r2_block dc.1 dc.2 =
              (r2_summary_row dc.1 (f :: rest) f :: rest.map (r2_detail_row dc.1)) ++
                [r2_sep_row] := by
            unfold r2_block
            rw [h]
          rw [hb, ih]
          rfl
    · intro b hb
      rw [List.mem_filterMap] at hb
      obtain ⟨dc, hdc, hfb⟩ := hb
      have hkey : dc.1 ≠ [] := dsa_customers_keys inp dc hdc
      revert hfb
      cases h : List.insertionSort custPairLe (dc.2.filter (fun p => decide (r2Eligible p))) with
      | nil => intro hfb; cases hfb
      | cons f rest =>
        intro hfb
        cases hfb
        constructor
        · simp
        · intro row hrow
          rcases List.mem_cons.mp hrow with rfl | hdet
          · simpa [r2_summary_row, r2_detail_row] using hkey
          · obtain ⟨q, _, rfl⟩ := List.mem_map.mp hdet
            simpa [r2_detail_row] using hkey
  · intro row hrow hempty
    obtain ⟨dc, hdc, hblock⟩ := List.mem_flatMap.mp hrow
    rcases mem_r2_block dc.1 dc.2 row hblock with rfl | ⟨q, _, hd, _⟩
    · rfl
    · exact absurd (hd ▸ hempty) (dsa_customers_keys inp dc hdc)

/-- Witness for C10: in `wR2u` the separator row is present, and dropping
empty-DSA rows leaves the extracted payments unchanged. -/
theorem claim_C10_witness :
    r2_sep_row ∈ report2_rows wR2u ∧
    extract_report2_payments (report2_rows wR2u) =
      extract_report2_payments ((report2_rows wR2u).filter
        (fun row => decide (row.dsa_mobile ≠ []))) :=
  ⟨by decide, (claim_C10_separator_rows wR2u).2.2.2.2.2⟩

/-! ### Supporting lemmas for the payment reconciler -/

theorem nodup_dedupFirstByAux_id (seen l : List Str) :
    (dedupFirstByAux id seen l).Nodup := by
  induction l generalizing seen with
  | nil => exact List.nodup_nil
  | cons y ys ih =>
    rw [dedupFirstByAux]
    split
    · exact ih seen
    · rw [List.nodup_cons]
      refine ⟨fun hmem => ?_, ih _⟩
      exact (mem_dedupFirstByAux_id.mp hmem).2 (List.mem_cons_self _ _)

theorem nodup_sorted_dsas (r1 r2 : List (Str × ℚ)) : (sorted_dsas r1 r2).Nodup :=
  ((List.perm_insertionSort _ _).nodup_iff).mpr (nodup_dedupFirstByAux_id _ _)

theorem mem_sorted_dsas (r1 r2 : List (Str × ℚ)) (d : Str) :
    d ∈ sorted_dsas r1 r2 ↔ d ∈ r1.map Prod.fst ∨ d ∈ r2.map Prod.fst := by
  unfold sorted_dsas
  rw [List.mem_insertionSort _, mem_dedupFirstBy_id, List.mem_append]

theorem sorted_sorted_dsas (r1 r2 : List (Str × ℚ)) :
    List.Sorted (· ≤ ·) (sorted_dsas r1 r2) :=
  List.sorted_insertionSort _ _

theorem map_dsa_payment_records (r1 r2 : List (Str × ℚ)) :
    (payment_records r1 r2).map PayRow.dsa_mobile = sorted_dsas r1 r2 := by
  unfold payment_records
  rw [List.map_map]
  exact List.map_id _

/-! ### Claim C6: payment conservation -/

/-- Claim C6 (corrected): when any agent occurs in either report, the ledger
is the per-agent records - one row per agent of the union of both reports,
in ascending sorted order without duplicates, missing payments defaulting to
0 and each row total the sum of its two payments - followed by one synthetic
`Total` row whose three fields are the column sums of the agent rows.  (For
empty inputs the ledger is empty and carries no `Total` row; see the
counterexample.) -/
theorem claim_C6_payment_ledger_amended (r1 r2 : List (Str × ℚ))
    (h : payment_records r1 r2 ≠ []) :
    (∃ total : PayRow,
      generate_payment_report r1 r2 = payment_records r1 r2 ++ [total] ∧
      total.dsa_mobile = str "Total" ∧
      total.payment_qualified = ((payment_records r1 r2).map PayRow.payment_qualified).sum ∧
      total.payment_not_onboarded =
        ((payment_records r1 r2).map PayRow.payment_not_onboarded).sum ∧
      total.total_payable = ((payment_records r1 r2).map PayRow.total_payable).sum) ∧
    (payment_records r1 r2).map PayRow.dsa_mobile = sorted_dsas r1 r2 ∧
    List.Sorted (· ≤ ·) ((payment_records r1 r2).map PayRow.dsa_mobile) ∧
    ((payment_records r1 r2).map PayRow.dsa_mobile).Nodup ∧
    (∀ d : Str, d ∈ (payment_records r1 r2).map PayRow.dsa_mobile ↔
      (d ∈ r1.map Prod.fst ∨ d ∈ r2.map Prod.fst)) ∧
    (∀ row ∈ payment_records r1 r2,
      row.payment_qualified = (dictLookup r1 row.dsa_mobile).getD 0 ∧
      row.payment_not_onboarded = (dictLookup r2 row.dsa_mobile).getD 0 ∧
      row.total_payable = row.payment_qualified + row.payment_not_onboarded) := by
  refine ⟨⟨{ dsa_mobile := str "Total"
             payment_qualified := ((payment_records r1 r2).map PayRow.payment_qualified).sum
             payment_not_onboarded :=
               ((payment_records r1 r2).map PayRow.payment_not_onboarded).sum
             total_payable := ((payment_records r1 r2).map PayRow.total_payable).sum },
           ?_, rfl, rfl, rfl, rfl⟩, map_dsa_payment_records r1 r2, ?_, ?_, ?_, ?_⟩
  · unfold generate_payment_report
    rw [if_neg h]
  · rw [map_dsa_payment_records]
    exact sorted_sorted_dsas r1 r2
  · rw [map_dsa_payment_records]
    exact nodup_sorted_dsas r1 r2
  · intro d
    rw [map_dsa_payment_records]
    exact mem_sorted_dsas r1 r2 d
  · intro row hrow
    obtain ⟨d, _, rfl⟩ := List.mem_map.mp hrow
    exact ⟨rfl, rfl, rfl⟩

/-- Witness for C6 at a concrete input: one agent in each report. -/
theorem claim_C6_witness :
    ∃ total : PayRow,
      generate_payment_report [(str "B", (40 : ℚ))] [(str "A", (25 : ℚ))] =
        payment_records [(str "B", (40 : ℚ))] [(str "A", (25 : ℚ))] ++ [total] ∧
      total.dsa_mobile = str "Total" ∧
      total.payment_qualified =
        ((payment_records [(str "B", (40 : ℚ))] [(str "A", (25 : ℚ))]).map
          PayRow.payment_qualified).sum ∧
      total.payment_not_onboarded =
        ((payment_records [(str "B", (40 : ℚ))] [(str "A", (25 : ℚ))]).map
          PayRow.payment_not_onboarded).sum ∧
      total.total_payable =
        ((payment_records [(str "B", (40 : ℚ))] [(str "A", (25 : ℚ))]).map
          PayRow.total_payable).sum :=
  (claim_C6_payment_ledger_amended [(str "B", (40 : ℚ))] [(str "A", (25 : ℚ))]
    (by decide)).1

/-- Counterexample to C6 as stated: with empty report inputs the ledger is
empty, so it is not "agent rows followed by one synthetic Total row". -/
theorem claim_C6_counterexample :
    generate_payment_report ([] : List (Str × ℚ)) ([] : List (Str × ℚ)) = [] ∧
    ¬∃ row ∈ generate_payment_report ([] : List (Str × ℚ)) ([] : List (Str × ℚ)),
      row.dsa_mobile = str "Total" := by
  constructor
  · rfl
  · rintro ⟨row, hrow, -⟩
    cases hrow

end DSADashboard
